import Mathlib

/-!
# Memory Cube: a verification development

A shallow embedding, in Lean 4, of the core of the `memory-cube` knowledge-graph
engine (TypeScript), together with theorems settling a list of claims about its
specification.

Conventions of the embedding:

* TypeScript strings are Lean `String`s; character-level operations work on
  `String.data` (`List Char`).
* Millisecond timestamps (`Date.now()`, `getTime()`) are Lean `Int`s.  Where the
  source stores an ISO-8601 string of an instant and later re-parses it
  (`new Date(x).toISOString()` / `new Date(s).getTime()`, which are mutually
  inverse for this format), the model stores the millisecond value directly.
  Where a date string is data (node header fields), it stays a `String` and
  `parseIsoMs` models `Date.parse` on the strict `YYYY-MM-DDTHH:MM:SS(.mmm)?Z`
  form (other forms are modelled as `none`, standing for `NaN`).
* JavaScript numbers used for priorities and counters are `Int`/`Nat` (that
  arithmetic is exact in binary64), and `confidence` is an exact rational
  (`Rat`).  The synthesis similarity scores, whose comparisons sit on rounding
  boundaries, are computed by an exact integer model of IEEE-754 binary64
  (`F64`/`normF64`/`dbl`): every multiplication, addition and division rounds
  to nearest with ties to even, and the resulting exact dyadic value is then
  carried as a `Rat` for the source's comparisons and sorting (an IEEE
  comparison compares exact values).
* TypeScript union string types (`NodeType`, `NodeStatus`, …) are erased at
  runtime, so node fields hold plain `String`s here as well; the declared enum
  sets are separate lists.
* Fallible code returns `Except String` / `Option`; a thrown `Error` or
  `TypeError` is `Except.error`.
-/

set_option maxRecDepth 100000

namespace MemoryCube

/-- Equality on `Except` results is decidable componentwise. -/
instance {ε α : Type} [DecidableEq ε] [DecidableEq α] :
    DecidableEq (Except ε α) := fun a b =>
  match a, b with
  | .ok x, .ok y =>
    match decEq x y with
    | isTrue h => isTrue (by rw [h])
    | isFalse h => isFalse (by intro hc; cases hc; exact h rfl)
  | .error x, .error y =>
    match decEq x y with
    | isTrue h => isTrue (by rw [h])
    | isFalse h => isFalse (by intro hc; cases hc; exact h rfl)
  | .ok _, .error _ => isFalse (by intro hc; cases hc)
  | .error _, .ok _ => isFalse (by intro hc; cases hc)

/-! ## Basic character/string utilities (models of the JS operations used) -/

/-- Whitespace for the purposes of the JS `\s` class and `String.prototype.trim`
(restricted to the characters that can actually appear in this code base). -/
def isWs (c : Char) : Bool :=
  c = ' ' || c = '\t' || c = '\n' || c = '\r' || c = '\x0b' || c = '\x0c'

/-- ASCII lowercasing of one character; model of `String.prototype.toLowerCase`
restricted to ASCII (all inputs used in theorems are ASCII). -/
def lowerChar (c : Char) : Char :=
  if 'A' ≤ c ∧ c ≤ 'Z' then Char.ofNat (c.toNat + 32) else c

/-- Model of `s.toLowerCase()` (ASCII fragment). -/
def jsToLower (s : String) : String :=
  ⟨s.data.map lowerChar⟩

def isDigitChar (c : Char) : Bool := '0' ≤ c && c ≤ '9'

def isAsciiLowerAlnum (c : Char) : Bool :=
  ('a' ≤ c && c ≤ 'z') || isDigitChar c

def dropWhileWs (l : List Char) : List Char := l.dropWhile (fun c => isWs c)

/-- Model of `String.prototype.trim`. -/
def jsTrim (s : String) : String :=
  ⟨(dropWhileWs ((dropWhileWs s.data.reverse).reverse))⟩

/-- Split a character list at every occurrence of `sep` (the pieces do not
contain `sep`); model of `String.prototype.split` with a one-character
separator. -/
def splitOnChar (sep : Char) : List Char → List (List Char)
  | [] => [[]]
  | c :: rest =>
    let r := splitOnChar sep rest
    if c = sep then [] :: r
    else
      match r with
      | [] => [[c]]
      | p :: ps => (c :: p) :: ps

/-- Join with a separator character: left inverse of `splitOnChar`. -/
def joinWithChar (sep : Char) : List (List Char) → List Char
  | [] => []
  | [p] => p
  | p :: ps => p ++ sep :: joinWithChar sep ps

/-- The lines of a string (split on `'\n'`). -/
def splitNl (s : String) : List String :=
  (splitOnChar '\n' s.data).map (fun l => (⟨l⟩ : String))

/-- Join lines with `'\n'` (no trailing newline): `intercalate "\n"`. -/
def joinNl (ls : List String) : String :=
  ⟨joinWithChar '\n' (ls.map String.data)⟩

/-- Decimal digits of a natural number, most significant first. -/
def natDigits (n : Nat) : List Char :=
  (Nat.toDigits 10 n)

/-- Model of JS number-to-string for a natural number. -/
def natToString (n : Nat) : String := ⟨natDigits n⟩

/-- Value of a list of decimal digits (most significant first). -/
def digitsToNat (l : List Char) : Nat :=
  l.foldl (fun acc c => acc * 10 + (c.toNat - '0'.toNat)) 0

/-! ## ISO-8601 timestamps

`parseIsoMs` models `Date.parse` (equivalently `new Date(s).getTime()`) on the
strict `YYYY-MM-DDTHH:MM:SS.mmmZ` / `YYYY-MM-DDTHH:MM:SSZ` forms, returning the
epoch milliseconds; any other shape is `none` (JS would give `NaN`, and every
comparison against `NaN` is false, which the call sites reproduce for `none`).
Days are counted with the standard civil-from-days formula. -/

def daysFromCivil (y : Int) (m d : Nat) : Int :=
  let y' : Int := if m ≤ 2 then y - 1 else y
  let era : Int := Int.fdiv (if 0 ≤ y' then y' else y' - 399) 400
  let yoe : Int := y' - era * 400
  let mp : Int := if m > 2 then (m : Int) - 3 else (m : Int) + 9
  let doy : Int := Int.fdiv (153 * mp + 2) 5 + (d : Int) - 1
  let doe : Int := yoe * 365 + Int.fdiv yoe 4 - Int.fdiv yoe 100 + doy
  era * 146097 + doe - 719468

def allDigits (l : List Char) : Bool := l.all isDigitChar

def parseIsoMs (s : String) : Option Int :=
  let l := s.data
  match l with
  | [y1,y2,y3,y4,'-',m1,m2,'-',d1,d2,'T',h1,h2,':',n1,n2,':',s1,s2,rest1] =>
    -- "YYYY-MM-DDTHH:MM:SSZ"
    if rest1 = 'Z' ∧ allDigits [y1,y2,y3,y4,m1,m2,d1,d2,h1,h2,n1,n2,s1,s2] then
      let y := digitsToNat [y1,y2,y3,y4]
      let mo := digitsToNat [m1,m2]
      let da := digitsToNat [d1,d2]
      some (daysFromCivil (y : Int) mo da * 86400000
        + (digitsToNat [h1,h2] : Int) * 3600000
        + (digitsToNat [n1,n2] : Int) * 60000
        + (digitsToNat [s1,s2] : Int) * 1000)
    else none
  | [y1,y2,y3,y4,'-',m1,m2,'-',d1,d2,'T',h1,h2,':',n1,n2,':',s1,s2,'.',f1,f2,f3,z] =>
    -- "YYYY-MM-DDTHH:MM:SS.mmmZ"
    if z = 'Z' ∧ allDigits [y1,y2,y3,y4,m1,m2,d1,d2,h1,h2,n1,n2,s1,s2,f1,f2,f3] then
      let y := digitsToNat [y1,y2,y3,y4]
      let mo := digitsToNat [m1,m2]
      let da := digitsToNat [d1,d2]
      some (daysFromCivil (y : Int) mo da * 86400000
        + (digitsToNat [h1,h2] : Int) * 3600000
        + (digitsToNat [n1,n2] : Int) * 60000
        + (digitsToNat [s1,s2] : Int) * 1000
        + (digitsToNat [f1,f2,f3] : Int))
    else none
  | _ => none

/-! ## Stable sorting (model of `Array.prototype.sort`, which is stable)

`sortByDesc key l` sorts `l` by `key` in descending order, keeping the original
relative order of elements with equal keys — exactly the result JS's stable
sort produces for the comparator `(a, b) => key(b) - key(a)`. -/

def insertDescBy {α β : Type} [LinearOrder β] (key : α → β) (x : α) :
    List α → List α
  | [] => [x]
  | y :: ys => if key y ≤ key x then x :: y :: ys else y :: insertDescBy key x ys

def sortByDesc {α β : Type} [LinearOrder β] (key : α → β) : List α → List α
  | [] => []
  | x :: xs => insertDescBy key x (sortByDesc key xs)

/-! ## Association-list maps (model of `Map<string, _>` / object rows)

JS `Map` preserves insertion order; `set` on an existing key updates in place.
-/

def alGet {α : Type} (m : List (String × α)) (k : String) : Option α :=
  (m.find? (fun p => p.1 = k)).map Prod.snd

def alHas {α : Type} (m : List (String × α)) (k : String) : Bool :=
  (m.find? (fun p => p.1 = k)).isSome

/-- `map.set(k, v)`: update in place if present, else append. -/
def alSet {α : Type} (m : List (String × α)) (k : String) (v : α) :
    List (String × α) :=
  if alHas m k then m.map (fun p => if p.1 = k then (k, v) else p)
  else m ++ [(k, v)]

/-- `map.delete(k)`. -/
def alDel {α : Type} (m : List (String × α)) (k : String) : List (String × α) :=
  m.filter (fun p => ¬ p.1 = k)

/-! ## The declared closed enum sets (src/core/types.ts) -/

def nodeTypes : List String :=
  ["task", "doc", "code", "decision", "ideation", "brainfart", "research",
   "conversation", "concept", "event", "agent", "project"]

def nodeStatuses : List String :=
  ["pending", "claimed", "active", "blocked", "complete", "archived"]

def nodeValidities : List String := ["current", "stale", "superseded", "archived"]

def priorityNames : List String := ["critical", "high", "normal", "low"]

def edgeTypes : List String :=
  ["implements", "documents", "sourced-from", "blocks", "blocked-by",
   "depends-on", "spawns", "becomes", "relates-to", "part-of", "supersedes",
   "invalidates", "derived-from", "assigned-to", "owned-by", "locked-by"]

/-! ## The data model (src/core/types.ts)

The TS union string types are erased at runtime, so the fields are `String`s;
`version` is a `Nat`, `confidence` a `Rat`.  The TS fields `from` / `to` of an
edge are `fromId` / `toId` here (`from` is a Lean keyword).  Edge `metadata` is
modelled as an optional string-to-string record, which covers every value the
claims exercise. -/

structure Edge where
  id : String
  fromId : String
  toId : String
  type : String
  metadata : Option (List (String × String)) := none
  createdAt : String
  deriving Repr, DecidableEq, Inhabited

structure NodeOrdering where
  supersededBy : Option String
  semanticHash : String
  sourceFreshness : String
  deriving Repr, DecidableEq, Inhabited

/-- A node action (`NodeAction` in types.ts); only its presence matters to the
claims (every constructor in scope leaves `actions = []`), so the `config` bag
is omitted. -/
structure NodeAction where
  trigger : String
  type : String
  deriving Repr, DecidableEq, Inhabited

structure Node where
  id : String
  type : String
  version : Nat
  status : String
  validity : String
  confidence : Rat
  priority : String
  tags : List String
  createdBy : Option String
  assignedTo : Option String
  lockedBy : Option String
  createdAt : String
  modifiedAt : String
  dueAt : Option String
  ordering : NodeOrdering
  actions : List NodeAction
  edges : List Edge
  title : String
  content : String
  contentPreview : String
  filePath : String
  deriving Repr, DecidableEq, Inhabited

/-! ## SHA-256 (model of node's `createHash('sha256')` usage)

A direct implementation over `Nat` with explicit reduction modulo `2^32`.
Strings are hashed through their UTF-8 bytes, as Node's `crypto` does. -/

def w32 (n : Nat) : Nat := n % 4294967296

def rotr (x n : Nat) : Nat := w32 ((x >>> n) ||| (x <<< (32 - n)))

def shaCh (x y z : Nat) : Nat := (x &&& y) ^^^ ((x ^^^ 4294967295) &&& z)

def shaMaj (x y z : Nat) : Nat := (x &&& y) ^^^ (x &&& z) ^^^ (y &&& z)

def bigSigma0 (x : Nat) : Nat := (rotr x 2) ^^^ (rotr x 13) ^^^ (rotr x 22)

def bigSigma1 (x : Nat) : Nat := (rotr x 6) ^^^ (rotr x 11) ^^^ (rotr x 25)

def smallSigma0 (x : Nat) : Nat := (rotr x 7) ^^^ (rotr x 18) ^^^ (x >>> 3)

def smallSigma1 (x : Nat) : Nat := (rotr x 17) ^^^ (rotr x 19) ^^^ (x >>> 10)

/-- The 64 round constants, in decimal (FIPS 180-4 gives them in hex). -/
def shaK : List Nat :=
  [1116352408, 1899447441, 3049323471, 3921009573, 961987163, 1508970993,
   2453635748, 2870763221, 3624381080, 310598401, 607225278, 1426881987,
   1925078388, 2162078206, 2614888103, 3248222580, 3835390401, 4022224774,
   264347078, 604807628, 770255983, 1249150122, 1555081692, 1996064986,
   2554220882, 2821834349, 2952996808, 3210313671, 3336571891, 3584528711,
   113926993, 338241895, 666307205, 773529912, 1294757372, 1396182291,
   1695183700, 1986661051, 2177026350, 2456956037, 2730485921, 2820302411,
   3259730800, 3345764771, 3516065817, 3600352804, 4094571909, 275423344,
   430227734, 506948616, 659060556, 883997877, 958139571, 1322822218,
   1537002063, 1747873779, 1955562222, 2024104815, 2227730452, 2361852424,
   2428436474, 2756734187, 3204031479, 3329325298]

/-- The eight initial hash values, in decimal. -/
def shaH0 : List Nat :=
  [1779033703, 3144134277, 1013904242, 2773480762,
   1359893119, 2600822924, 528734635, 1541459225]

/-- UTF-8 bytes of a character. -/
def utf8Bytes (c : Char) : List Nat :=
  let n := c.toNat
  if n < 0x80 then [n]
  else if n < 0x800 then
    [0xC0 ||| (n >>> 6), 0x80 ||| (n &&& 0x3F)]
  else if n < 0x10000 then
    [0xE0 ||| (n >>> 12), 0x80 ||| ((n >>> 6) &&& 0x3F), 0x80 ||| (n &&& 0x3F)]
  else
    [0xF0 ||| (n >>> 18), 0x80 ||| ((n >>> 12) &&& 0x3F),
     0x80 ||| ((n >>> 6) &&& 0x3F), 0x80 ||| (n &&& 0x3F)]

def strBytes (s : String) : List Nat := (s.data.map utf8Bytes).flatten

/-- SHA-256 padding: append `0x80`, zeros to 56 mod 64, then the bit length as
eight big-endian bytes. -/
def shaPad (msg : List Nat) : List Nat :=
  let len := msg.length
  let bitLen := 8 * len
  let zeros := (119 - len % 64) % 64
  msg ++ [0x80] ++ List.replicate zeros 0 ++
    ((List.range 8).reverse.map (fun i => (bitLen >>> (8 * i)) &&& 255))

def chunk64Go : Nat → List Nat → List (List Nat)
  | 0, _ => []
  | _, [] => []
  | fuel + 1, l => l.take 64 :: chunk64Go fuel (l.drop 64)

/-- Split into 64-byte blocks (the fuel only bounds the recursion; every
nonempty step consumes 64 elements, so the length always suffices). -/
def chunk64 (l : List Nat) : List (List Nat) := chunk64Go l.length l

def bytesToWords : List Nat → List Nat
  | b0 :: b1 :: b2 :: b3 :: rest =>
    (((b0 * 256 + b1) * 256 + b2) * 256 + b3) :: bytesToWords rest
  | _ => []

/-- Extend the 16-word message schedule by `count` further words. -/
def extendSchedule (ws : List Nat) : Nat → List Nat
  | 0 => ws
  | c + 1 =>
    let n := ws.length
    let next := w32 (ws.getD (n - 16) 0 + smallSigma0 (ws.getD (n - 15) 0)
      + ws.getD (n - 7) 0 + smallSigma1 (ws.getD (n - 2) 0))
    extendSchedule (ws ++ [next]) c

def shaRound (st : List Nat) (kw : Nat × Nat) : List Nat :=
  match st with
  | [a, b, c, d, e, f, g, h] =>
    let t1 := w32 (h + bigSigma1 e + shaCh e f g + kw.1 + kw.2)
    let t2 := w32 (bigSigma0 a + shaMaj a b c)
    [w32 (t1 + t2), a, b, c, w32 (d + t1), e, f, g]
  | other => other

def compressBlock (hs : List Nat) (block : List Nat) : List Nat :=
  let ws := extendSchedule (bytesToWords block) 48
  let fin := (shaK.zip ws).foldl shaRound hs
  List.zipWith (fun h f => w32 (h + f)) hs fin

def sha256Words (msg : List Nat) : List Nat :=
  (chunk64 (shaPad msg)).foldl compressBlock shaH0

def hexNibble (n : Nat) : Char :=
  if n < 10 then Char.ofNat ('0'.toNat + n) else Char.ofNat ('a'.toNat + n - 10)

def wordHex (w : Nat) : List Char :=
  (List.range 8).reverse.map (fun i => hexNibble ((w >>> (4 * i)) &&& 15))

/-- `createHash('sha256').update(s).digest('hex')`. -/
def sha256Hex (s : String) : String :=
  ⟨((sha256Words (strBytes s)).map wordHex).flatten⟩

/-! ## Node construction and derivation (src/core/node.ts) -/

/-- Helper for `slugReplace`: the flag records whether the previous character
was inside a non-alphanumeric run (whose dash has already been emitted). -/
def slugReplaceGo : Bool → List Char → List Char
  | _, [] => []
  | inRun, c :: rest =>
    if isAsciiLowerAlnum c then c :: slugReplaceGo false rest
    else if inRun then slugReplaceGo true rest
    else '-' :: slugReplaceGo true rest

/-- Collapse every maximal run of non-`[a-z0-9]` characters to a single `'-'`:
`replace(/[^a-z0-9]+/g, '-')`. -/
def slugReplace (l : List Char) : List Char := slugReplaceGo false l

/-- `replace(/^-|-$/g, '')`: the global regex removes one leading and one
trailing dash (each at most once, and never the same character twice). -/
def trimDashOnce (l : List Char) : List Char :=
  let l1 := if l.head? = some '-' then l.tail else l
  if l1.getLast? = some '-' then l1.dropLast else l1

/-- The slug derived from a title in `generateId`. -/
def titleSlug (title : String) : List Char :=
  (trimDashOnce (slugReplace (jsToLower title).data)).take 50

/-- `generateId(type, title)`; `Date.now()` is the explicit `nowMs`. -/
def generateId (type title : String) (nowMs : Nat) : String :=
  let hash := ⟨(sha256Hex (type ++ ":" ++ title ++ ":" ++ natToString nowMs)).data.take 6⟩
  type ++ "/" ++ (⟨titleSlug title⟩ : String) ++ "-" ++ hash

def isWordChar (c : Char) : Bool :=
  ('a' ≤ c && c ≤ 'z') || ('A' ≤ c && c ≤ 'Z') || isDigitChar c || c = '_'

/-- Helper for `collapseWs`: the flag records an open whitespace run. -/
def collapseWsGo : Bool → List Char → List Char
  | _, [] => []
  | inRun, c :: rest =>
    if isWs c then
      if inRun then collapseWsGo true rest else ' ' :: collapseWsGo true rest
    else c :: collapseWsGo false rest

/-- Collapse every maximal run of whitespace to one space: `replace(/\s+/g, ' ')`. -/
def collapseWs (l : List Char) : List Char := collapseWsGo false l

/-- `generateSemanticHash(content)`. -/
def generateSemanticHash (content : String) : String :=
  let normalized :=
    jsTrim ⟨(collapseWs (jsToLower content).data).filter
      (fun c => isWordChar c || isWs c)⟩
  ⟨(sha256Hex normalized).data.take 16⟩

/-- A line matching `/^#+ .+$/`. -/
def isHeadingLine (l : List Char) : Bool :=
  let hashes := l.takeWhile (fun c => c = '#')
  let rest := l.drop hashes.length
  decide (hashes ≠ []) && (rest.head? = some ' ') && decide (rest.length ≥ 2)

/-- Helper for `collapseNl`: the flag records an open newline run. -/
def collapseNlGo : Bool → List Char → List Char
  | _, [] => []
  | inRun, c :: rest =>
    if c = '\n' then
      if inRun then collapseNlGo true rest else ' ' :: collapseNlGo true rest
    else c :: collapseNlGo false rest

/-- Collapse every maximal run of `'\n'` to one space: `replace(/\n+/g, ' ')`. -/
def collapseNl (l : List Char) : List Char := collapseNlGo false l

/-- `extractPreview(content, maxLength)`: blank heading lines, collapse
newlines then whitespace, trim and cut to `maxLength`. -/
def extractPreview (content : String) (maxLength : Nat := 200) : String :=
  let noHeadings :=
    joinWithChar '\n'
      ((splitOnChar '\n' content.data).map
        (fun l => if isHeadingLine l then [] else l))
  ⟨(jsTrim ⟨collapseWs (collapseNl noHeadings)⟩).data.take maxLength⟩

/-- Input record of `createNode` (the `create` contract of C1). -/
structure CreateInput where
  type : String
  title : String
  content : Option String := none
  status : Option String := none
  priority : Option String := none
  tags : Option (List String) := none
  assignedTo : Option String := none
  createdBy : Option String := none
  dueAt : Option String := none
  deriving Repr, DecidableEq, Inhabited

/-- `now.split('T')[0]`. -/
def isoDatePart (now : String) : String :=
  ⟨((splitOnChar 'T' now.data).headD [])⟩

/-- `createNode(input)`, with `new Date().toISOString()` as `now` and
`Date.now()` as `nowMs`. -/
def createNode (input : CreateInput) (now : String) (nowMs : Nat) : Node :=
  let content := input.content.getD ""
  { id := generateId input.type input.title nowMs
    type := input.type
    version := 1
    status := input.status.getD "pending"
    validity := "current"
    confidence := 1
    priority := input.priority.getD "normal"
    tags := input.tags.getD []
    createdBy := input.createdBy
    assignedTo := input.assignedTo
    lockedBy := none
    createdAt := now
    modifiedAt := now
    dueAt := input.dueAt
    ordering :=
      { supersededBy := none
        semanticHash := generateSemanticHash (input.title ++ " " ++ content)
        sourceFreshness := isoDatePart now }
    actions := []
    edges := []
    title := input.title
    content := content
    contentPreview := extractPreview content
    filePath := "" }

/-- The partial update record accepted by `updateNode`.  Fields of the node
that are nullable carry `Option (Option String)`: the outer layer is presence
in the partial record, the inner one is `null`. -/
structure UpdateInput where
  title : Option String := none
  content : Option String := none
  status : Option String := none
  validity : Option String := none
  priority : Option String := none
  tags : Option (List String) := none
  assignedTo : Option (Option String) := none
  lockedBy : Option (Option String) := none
  dueAt : Option (Option String) := none
  confidence : Option Rat := none
  deriving Repr, DecidableEq, Inhabited

/-- `updateNode(node, updates)`: spread, bump version, refresh `modifiedAt`,
and recompute preview/semantic hash iff title or content was supplied. -/
def updateNode (node : Node) (u : UpdateInput) (now : String) : Node :=
  let n1 : Node :=
    { node with
      title := u.title.getD node.title
      content := u.content.getD node.content
      status := u.status.getD node.status
      validity := u.validity.getD node.validity
      priority := u.priority.getD node.priority
      tags := u.tags.getD node.tags
      assignedTo := u.assignedTo.getD node.assignedTo
      lockedBy := u.lockedBy.getD node.lockedBy
      dueAt := u.dueAt.getD node.dueAt
      confidence := u.confidence.getD node.confidence
      version := node.version + 1
      modifiedAt := now }
  if u.content.isSome ∨ u.title.isSome then
    { n1 with
      contentPreview := extractPreview n1.content
      ordering :=
        { n1.ordering with
          semanticHash := generateSemanticHash (n1.title ++ " " ++ n1.content) } }
  else n1

/-- `addEdge(node, edge)`: append the edge with the deterministic id. -/
def addEdge (node : Node) (etype toId : String)
    (metadata : Option (List (String × String))) (now : String) : Node :=
  let edgeId := node.id ++ "--" ++ etype ++ "-->" ++ toId
  { node with
    version := node.version + 1
    modifiedAt := now
    edges := node.edges ++
      [{ id := edgeId, fromId := node.id, toId := toId, type := etype,
         metadata := metadata, createdAt := now }] }

/-- `removeEdge(node, edgeId)`. -/
def removeEdge (node : Node) (edgeId : String) (now : String) : Node :=
  { node with
    version := node.version + 1
    modifiedAt := now
    edges := node.edges.filter (fun e => ¬ e.id = edgeId) }

/-! ## The node codec (node.ts: `nodeToMarkdown` / `markdownToNode`)

The serialized header is hand-built YAML (`buildYaml`) and re-read by a
hand-rolled parser (`parseYaml`).  JS runtime values appearing in the parsed
header are modelled by `YamlValue`; a thrown exception (`JSON.parse` failures,
`TypeError`s from mis-shaped values) is `Except.error`. -/

inductive YamlValue where
  | nullV : YamlValue
  | boolV : Bool → YamlValue
  | intV : Int → YamlValue
  | floatV : Rat → YamlValue
  | str : String → YamlValue
  | arr : List YamlValue → YamlValue
  | obj : List (String × YamlValue) → YamlValue
  deriving Repr, Inhabited, BEq

/-- JS truthiness of a parsed value (`x || []` tests). -/
def jsTruthy : YamlValue → Bool
  | .nullV => false
  | .boolV b => b
  | .intV n => decide (n ≠ 0)
  | .floatV q => decide (q ≠ 0)
  | .str s => decide (s ≠ "")
  | .arr _ => true
  | .obj _ => true

/-! ### A model of `JSON.parse` / `JSON.stringify`

`JSON.parse` is used by the codec only on inline arrays and quoted scalars; the
values those can denote here are strings, numbers without exponents, literals
and (nested) arrays — exactly the fragment the writer can emit.  JSON objects
and exponent notation are outside the modelled fragment and produce an error
(the source would parse them; no modelled execution reaches them). -/

def jsonWs (c : Char) : Bool := c = ' ' || c = '\t' || c = '\n' || c = '\r'

def skipJsonWs (l : List Char) : List Char := l.dropWhile jsonWs

def hexVal (c : Char) : Option Nat :=
  if '0' ≤ c ∧ c ≤ '9' then some (c.toNat - '0'.toNat)
  else if 'a' ≤ c ∧ c ≤ 'f' then some (c.toNat - 'a'.toNat + 10)
  else if 'A' ≤ c ∧ c ≤ 'F' then some (c.toNat - 'A'.toNat + 10)
  else none

/-- Scan a JSON string body (after the opening quote). -/
def jsonStringRest : Nat → List Char → Except String (List Char × List Char)
  | 0, _ => .error "Unexpected end of JSON input"
  | _, [] => .error "Unexpected end of JSON input"
  | fuel + 1, c :: rest =>
    if c = '"' then .ok ([], rest)
    else if c = '\\' then
      match rest with
      | [] => .error "Unexpected end of JSON input"
      | e :: rest' =>
        let simpleEsc : Option Char :=
          if e = '"' then some '"'
          else if e = '\\' then some '\\'
          else if e = '/' then some '/'
          else if e = 'b' then some '\x08'
          else if e = 'f' then some '\x0c'
          else if e = 'n' then some '\n'
          else if e = 'r' then some '\r'
          else if e = 't' then some '\t'
          else none
        match simpleEsc with
        | some d =>
          match jsonStringRest fuel rest' with
          | .ok (body, rem) => .ok (d :: body, rem)
          | .error err => .error err
        | none =>
          if e = 'u' then
            match rest' with
            | h1 :: h2 :: h3 :: h4 :: rest'' =>
              match hexVal h1, hexVal h2, hexVal h3, hexVal h4 with
              | some a, some b, some c', some d =>
                let code := ((a * 16 + b) * 16 + c') * 16 + d
                match jsonStringRest fuel rest'' with
                | .ok (body, rem) =>
                  .ok (Char.ofNat code :: body, rem)
                | .error err => .error err
              | _, _, _, _ => .error "Bad Unicode escape in JSON"
            | _ => .error "Bad Unicode escape in JSON"
          else .error "Bad escaped character in JSON"
    else if c.toNat < 0x20 then .error "Bad control character in JSON string"
    else
      match jsonStringRest fuel rest with
      | .ok (body, rem) => .ok (c :: body, rem)
      | .error err => .error err

mutual

def jsonValueGo : Nat → List Char → Except String (YamlValue × List Char)
  | 0, _ => .error "JSON nesting too deep for the modelled fragment"
  | fuel + 1, l =>
    match l with
    | [] => .error "Unexpected end of JSON input"
    | c :: rest =>
      if c = 'n' then
        match rest with
        | 'u' :: 'l' :: 'l' :: rem => .ok (.nullV, rem)
        | _ => .error "Unexpected token in JSON"
      else if c = 't' then
        match rest with
        | 'r' :: 'u' :: 'e' :: rem => .ok (.boolV true, rem)
        | _ => .error "Unexpected token in JSON"
      else if c = 'f' then
        match rest with
        | 'a' :: 'l' :: 's' :: 'e' :: rem => .ok (.boolV false, rem)
        | _ => .error "Unexpected token in JSON"
      else if c = '"' then
        match jsonStringRest (l.length + 1) rest with
        | .ok (body, rem) => .ok (.str ⟨body⟩, rem)
        | .error e => .error e
      else if c = '[' then
        match skipJsonWs rest with
        | ']' :: rem => .ok (.arr [], rem)
        | inner => jsonArrayItems fuel inner []
      else if c = '-' ∨ isDigitChar c then
        let neg := c = '-'
        let digitsRest := if neg then rest else l
        let intPart := digitsRest.takeWhile isDigitChar
        let afterInt := digitsRest.drop intPart.length
        if intPart = [] then .error "Unexpected token in JSON"
        else
          match afterInt with
          | '.' :: fracRest =>
            let fracPart := fracRest.takeWhile isDigitChar
            if fracPart = [] then .error "Unexpected token in JSON"
            else
              let rem := fracRest.drop fracPart.length
              let mag : Rat := (digitsToNat intPart : Rat)
                + (digitsToNat fracPart : Rat) / ((10 : Rat) ^ fracPart.length)
              .ok (.floatV (if neg then -mag else mag), rem)
          | rem =>
            let v : Int := digitsToNat intPart
            .ok (.intV (if neg then -v else v), rem)
      else .error "Unexpected token in JSON"

def jsonArrayItems : Nat → List Char → List YamlValue →
    Except String (YamlValue × List Char)
  | 0, _, _ => .error "JSON nesting too deep for the modelled fragment"
  | fuel + 1, l, acc =>
    match jsonValueGo fuel (skipJsonWs l) with
    | .error e => .error e
    | .ok (v, rem) =>
      match skipJsonWs rem with
      | ',' :: rem' => jsonArrayItems fuel rem' (acc ++ [v])
      | ']' :: rem' => .ok (.arr (acc ++ [v]), rem')
      | _ => .error "Expected , or ] in JSON array"

end

/-- `JSON.parse` on the modelled fragment. -/
def jsonParse (s : String) : Except String YamlValue :=
  match jsonValueGo (s.length + 1) (skipJsonWs s.data) with
  | .error e => .error e
  | .ok (v, rem) =>
    if skipJsonWs rem = [] then .ok v else .error "Unexpected token after JSON value"

/-- `JSON.stringify` of a string. -/
def jsonEscapeChar (c : Char) : List Char :=
  if c = '"' then ['\\', '"']
  else if c = '\\' then ['\\', '\\']
  else if c = '\n' then ['\\', 'n']
  else if c = '\r' then ['\\', 'r']
  else if c = '\t' then ['\\', 't']
  else if c = '\x08' then ['\\', 'b']
  else if c = '\x0c' then ['\\', 'f']
  else if c.toNat < 0x20 then
    ['\\', 'u', '0', '0', hexNibble (c.toNat / 16), hexNibble (c.toNat % 16)]
  else [c]

def jsonStringify (s : String) : String :=
  ⟨'"' :: (s.data.map jsonEscapeChar).flatten ++ ['"']⟩

/-! ### `parseValue` and the YAML line machinery -/

def isIntString (l : List Char) : Bool :=
  match l with
  | '-' :: rest => decide (rest ≠ []) && allDigits rest
  | _ => decide (l ≠ []) && allDigits l

/-- `/^-?\d+\.\d+$/`. -/
def isFloatString (l : List Char) : Bool :=
  let core := match l with
    | '-' :: rest => rest
    | _ => l
  let intPart := core.takeWhile isDigitChar
  let after := core.drop intPart.length
  match after with
  | '.' :: frac => decide (intPart ≠ []) && decide (frac ≠ []) && allDigits frac
  | _ => false

/-- `parseInt(s, 10)` on an `isIntString` input (exact; JS would lose precision
beyond 2^53, which no modelled execution reaches). -/
def parseIntModel (s : String) : Int :=
  match s.data with
  | '-' :: rest => -(digitsToNat rest : Int)
  | l => (digitsToNat l : Int)

/-- `parseFloat` on an `isFloatString` input (exact rational; see above). -/
def parseFloatModel (s : String) : Rat :=
  let core := match s.data with
    | '-' :: rest => rest
    | l => l
  let intPart := core.takeWhile isDigitChar
  let after := core.drop intPart.length
  let frac := match after with
    | '.' :: f => f
    | _ => []
  let mag : Rat := (digitsToNat intPart : Rat)
    + (digitsToNat frac : Rat) / ((10 : Rat) ^ frac.length)
  if s.data.head? = some '-' then -mag else mag

/-- `parseValue(value)` from node.ts (the input is already trimmed by callers). -/
def parseValue (s : String) : Except String YamlValue :=
  if s = "null" then .ok .nullV
  else if s = "true" then .ok (.boolV true)
  else if s = "false" then .ok (.boolV false)
  else if isIntString s.data then .ok (.intV (parseIntModel s))
  else if isFloatString s.data then .ok (.floatV (parseFloatModel s))
  else if s.data.head? = some '"' ∧ s.data.getLast? = some '"' then jsonParse s
  else if s.data.head? = some '[' then
    match jsonParse s with
    | .ok v => .ok v
    | .error _ => .ok (.str s)
  else .ok (.str s)

/-- Model of matching a line against `/^(\s*)([^:]+):\s*(.*)$/`: returns the
indent width, the key (untrimmed) and the value with its leading whitespace
already consumed by the greedy `\s*`.  There is a match exactly when the line
has a `':'` preceded by at least one character. -/
def lineKV (l : List Char) : Option (Nat × String × String) :=
  match l.findIdx? (fun c => c = ':') with
  | none => none
  | some fc =>
    if fc = 0 then none
    else
      let w := (l.takeWhile isWs).length
      let ind := if w ≥ fc then fc - 1 else w
      let key := (l.drop ind).take (fc - ind)
      let value := (l.drop (fc + 1)).dropWhile isWs
      some (ind, ⟨key⟩, ⟨value⟩)

/-- The inner loop collecting a nested (indented) object; returns the entries
and the unconsumed lines.  JS object assignment order/overwrite semantics are
modelled by appending and reading the last occurrence (`metaGet`). -/
def parseNested : List String → List (String × YamlValue) →
    Except String (List (String × YamlValue) × List String)
  | [], acc => .ok (acc, [])
  | line :: rest, acc =>
    if (jsTrim line).data = [] then parseNested rest acc
    else
      match lineKV line.data with
      | none => .ok (acc, line :: rest)
      | some (ind, key, value) =>
        if ind = 0 then .ok (acc, line :: rest)
        else
          match parseValue (jsTrim value) with
          | .error e => .error e
          | .ok v => parseNested rest (acc ++ [(jsTrim key, v)])

/-- The loop collecting `- ` array items. -/
def parseDashItems : List String → List YamlValue →
    Except String (List YamlValue × List String)
  | [], acc => .ok (acc, [])
  | line :: rest, acc =>
    let t := jsTrim line
    if t.data.head? = some '-' then
      match parseValue (jsTrim ⟨t.data.tail⟩) with
      | .error e => .error e
      | .ok v => parseDashItems rest (acc ++ [v])
    else .ok (acc, line :: rest)

/-- The main `parseYaml` loop over the header lines.  Indentation tests in the
source divide lengths by 2 and compare against 0; those comparisons are
equivalent to the integer comparisons used here.  `fuel` only bounds the
iteration (each step consumes at least one line, so `lines.length + 1` always
suffices). -/
def parseYamlGo : Nat → List String → List (String × YamlValue) →
    Except String (List (String × YamlValue))
  | _, [], acc => .ok acc
  | 0, _, acc => .ok acc
  | fuel + 1, line :: rest, acc =>
    let t := jsTrim line
    if t.data = [] ∨ t.data.head? = some '#' then parseYamlGo fuel rest acc
    else
      match lineKV line.data with
      | none => parseYamlGo fuel rest acc
      | some (ind, key, value) =>
        if 1 ≤ ind then parseYamlGo fuel rest acc
        else
          let tv := jsTrim value
          if tv = "" ∨ tv = "|" ∨ tv = ">" then
            match parseNested rest [] with
            | .error e => .error e
            | .ok (nested, remaining) =>
              parseYamlGo fuel remaining (acc ++ [(jsTrim key, .obj nested)])
          else if tv.data.head? = some '[' then
            match jsonParse tv with
            | .error e => .error e
            | .ok v => parseYamlGo fuel rest (acc ++ [(jsTrim key, v)])
          else if tv.data.head? = some '-' then
            let first : Except String (List YamlValue) :=
              if tv = "-" then .ok []
              else
                match parseValue (jsTrim ⟨tv.data.tail⟩) with
                | .error e => .error e
                | .ok v => .ok [v]
            match first with
            | .error e => .error e
            | .ok acc0 =>
              match parseDashItems rest acc0 with
              | .error e => .error e
              | .ok (items, remaining) =>
                parseYamlGo fuel remaining (acc ++ [(jsTrim key, .arr items)])
          else
            match parseValue tv with
            | .error e => .error e
            | .ok v => parseYamlGo fuel rest (acc ++ [(jsTrim key, v)])

/-- `parseYaml` over a list of header lines. -/
def parseYamlLines (lines : List String) : Except String (List (String × YamlValue)) :=
  parseYamlGo (lines.length + 1) lines []

/-- Property lookup on the parsed header: later assignments overwrite. -/
def metaGet (entries : List (String × YamlValue)) (k : String) : Option YamlValue :=
  ((entries.reverse).find? (fun p => p.1 = k)).map Prod.snd

/-! ### The writer (`buildYaml` / `nodeToMarkdown`)

`buildYaml` is a generic object walker; `nodeToMarkdown` calls it on one fixed
record shape, so the model emits that record's lines directly, reproducing each
branch of `buildYaml` the walk takes (nulls, inline primitive lists, nested
objects indented two spaces, and `- ` object-sequence items whose continuation
lines get the `.trim().replace(/\n/g, ...)` re-indentation of the source). -/

/-- The string case of `buildYaml`: quote iff the value contains `:`, `#` or a
newline. -/
def yamlScalarString (s : String) : String :=
  if s.data.contains ':' ∨ s.data.contains '#' ∨ s.data.contains '\n'
  then jsonStringify s else s

def yamlOptStr : Option String → String
  | none => "null"
  | some s => yamlScalarString s

/-- JS number printing for the rationals the codec can see: integers print
without a point, terminating decimals exactly (JS floats are dyadic, so every
float prints as a terminating decimal); other rationals cannot arise from a
float and get a fraction spelling. -/
def ratToString (q : Rat) : String :=
  if q.den = 1 then
    (if q.num < 0 then "-" ++ natToString q.num.natAbs else natToString q.num.natAbs)
  else
    match (List.range 40).find? (fun k => (q * (10 : Rat) ^ k).den = 1) with
    | some k =>
      let scaled := (q * (10 : Rat) ^ k).num
      let sign := if scaled < 0 then "-" else ""
      let digits := natDigits scaled.natAbs
      let padded := List.replicate (k + 1 - min digits.length (k + 1)) '0' ++ digits
      let cut := padded.length - k
      sign ++ ⟨padded.take cut⟩ ++ "." ++ ⟨padded.drop cut⟩
    | none => natToString q.num.natAbs ++ "/" ++ natToString q.den

def tagsLine (tags : List String) : String :=
  if tags = [] then "tags: []"
  else "tags: [" ++ String.intercalate ", " (tags.map jsonStringify) ++ "]"

/-- The lines `buildYaml` emits for one `- ` edge item (type, target,
metadata), after the source's `.trim()` and newline re-indentation. -/
def edgeItemLines (e : Edge) : List String :=
  ["  - type: " ++ yamlScalarString e.type,
   "        target: " ++ yamlScalarString e.toId] ++
  (match e.metadata with
   | none => ["        metadata: null"]
   | some entries =>
     "        metadata:" ::
       entries.map (fun p => "          " ++ p.1 ++ ": " ++ yamlScalarString p.2))

def edgesLines (edges : List Edge) : List String :=
  if edges = [] then ["edges: []"]
  else "edges:" :: (edges.map edgeItemLines).flatten

/-- The lines for the `actions` key.  Every constructor in scope leaves
`actions = []`; the nonempty case follows the same `- ` item shape. -/
def actionsLines (actions : List NodeAction) : List String :=
  if actions = [] then ["actions: []"]
  else "actions:" ::
    (actions.map (fun a =>
      ["  - trigger: " ++ yamlScalarString a.trigger,
       "        type: " ++ yamlScalarString a.type])).flatten

/-- The YAML frontmatter lines of a node, in the key order of
`nodeToMarkdown`. -/
def headerLines (n : Node) : List String :=
  ["id: " ++ yamlScalarString n.id,
   "type: " ++ yamlScalarString n.type,
   "version: " ++ natToString n.version,
   "status: " ++ yamlScalarString n.status,
   "validity: " ++ yamlScalarString n.validity,
   "confidence: " ++ ratToString n.confidence,
   "priority: " ++ yamlScalarString n.priority,
   tagsLine n.tags,
   "created_by: " ++ yamlOptStr n.createdBy,
   "assigned_to: " ++ yamlOptStr n.assignedTo,
   "locked_by: " ++ yamlOptStr n.lockedBy,
   "created_at: " ++ yamlScalarString n.createdAt,
   "modified_at: " ++ yamlScalarString n.modifiedAt,
   "due_at: " ++ yamlOptStr n.dueAt,
   "ordering:",
   "  superseded_by: " ++ yamlOptStr n.ordering.supersededBy,
   "  semantic_hash: " ++ yamlScalarString n.ordering.semanticHash,
   "  source_freshness: " ++ yamlScalarString n.ordering.sourceFreshness] ++
  edgesLines n.edges ++ actionsLines n.actions

/-- `nodeToMarkdown(node)`:
`---\n${yaml}---\n\n# ${title}\n\n${content}`. -/
def nodeToMarkdown (n : Node) : String :=
  joinNl (["---"] ++ headerLines n ++ ["---", "", "# " ++ n.title, "", n.content])

/-! ### The reader (`markdownToNode`) -/

/-- Least index `j ≥ 1` with `rest[j] = "---"` and `j` not the final index:
the line-level meaning of the lazy `/^---\n([\s\S]*?)\n---\n\n?([\s\S]*)$/`
split (the closing delimiter needs a newline on each side). -/
def findCloseIdx (rest : List String) : Option Nat :=
  (List.range rest.length).find?
    (fun j => 1 ≤ j ∧ rest.getD j "" = "---" ∧ j + 1 < rest.length)

/-- Coercions of parsed header values into the typed node fields.  A TS `as`
cast does not convert at runtime; a value of the wrong runtime shape would put
the node outside its declared type, which the model reports as an error (see
the module comment; no claim is settled on such an input). -/
def asStr : Option YamlValue → Except String String
  | some (.str s) => .ok s
  | _ => .error "field is not a string (outside the modelled fragment)"

def asOptStr : Option YamlValue → Except String (Option String)
  | some .nullV => .ok none
  | some (.str s) => .ok (some s)
  | _ => .error "field is not a string or null (outside the modelled fragment)"

def asNat : Option YamlValue → Except String Nat
  | some (.intV n) => if n < 0 then .error "negative count" else .ok n.toNat
  | _ => .error "field is not an integer (outside the modelled fragment)"

def asRat : Option YamlValue → Except String Rat
  | some (.intV n) => .ok (n : Rat)
  | some (.floatV q) => .ok q
  | _ => .error "field is not a number (outside the modelled fragment)"

def asStrList : Option YamlValue → Except String (List String)
  | some (.arr items) =>
    items.foldr
      (fun v acc =>
        match v, acc with
        | .str s, .ok l => .ok (s :: l)
        | _, .ok _ => .error "array item is not a string (outside the modelled fragment)"
        | _, .error e => .error e)
      (.ok [])
  | _ => .error "field is not an array (outside the modelled fragment)"

/-- `(meta.edges || []).map(...)`: `undefined`/falsy gives `[]`; an array maps
each `{type, target, metadata}` item; anything else truthy has no `.map` and
throws a `TypeError`. -/
def edgesOfMeta (metaId createdAt : String) (v : Option YamlValue) :
    Except String (List Edge) :=
  match v with
  | none => .ok []
  | some val =>
    if !jsTruthy val then .ok []
    else
      match val with
      | .arr items =>
        items.foldr
          (fun item acc =>
            match acc with
            | .error e => .error e
            | .ok l =>
              match item with
              | .obj entries =>
                match asStr (metaGet entries "type"), asStr (metaGet entries "target") with
                | .ok t, .ok target =>
                  let md : Option (List (String × String)) :=
                    match metaGet entries "metadata" with
                    | some (.obj ms) =>
                      some (ms.filterMap (fun p =>
                        match p.2 with
                        | .str s => some (p.1, s)
                        | _ => none))
                    | _ => none
                  .ok ({ id := metaId ++ "--" ++ t ++ "-->" ++ target,
                         fromId := metaId, toId := target, type := t,
                         metadata := md, createdAt := createdAt } :: l)
                | _, _ => .error "edge item fields outside the modelled fragment"
              | _ => .error "edge item is not an object (outside the modelled fragment)")
          (.ok [])
      | _ => .error "TypeError: (meta.edges || []).map is not a function"

/-- `meta.actions as NodeAction[] || []`. -/
def actionsOfMeta (v : Option YamlValue) : Except String (List NodeAction) :=
  match v with
  | none => .ok []
  | some val =>
    if !jsTruthy val then .ok []
    else
      match val with
      | .arr [] => .ok []
      | _ => .error "nonempty actions outside the modelled fragment"

/-- The `/^# (.+)$/m` title search over the body lines. -/
def titleOfBody (bodyLines : List String) : String :=
  match bodyLines.find? (fun l =>
      decide (l.data.take 2 = ['#', ' ']) && decide (3 ≤ l.length)) with
  | some l => ⟨l.data.drop 2⟩
  | none => "Untitled"

/-- `body.replace(/^# .+\n\n?/, '')` at the line level. -/
def contentOfBody (bodyLines : List String) : List String :=
  match bodyLines with
  | l0 :: l1 :: rest =>
    if l0.data.take 2 = ['#', ' '] ∧ 3 ≤ l0.length then
      match l1, rest with
      | "", more => more
      | _, _ => l1 :: rest
    else bodyLines
  | _ => bodyLines

/-- `markdownToNode(markdown, filePath)`. -/
def markdownToNode (markdown filePath : String) : Except String Node := do
  let lines := splitNl markdown
  match lines with
  | [] => .error "Invalid node file: missing YAML frontmatter"
  | first :: rest =>
    if first ≠ "---" then .error "Invalid node file: missing YAML frontmatter"
    else
      match findCloseIdx rest with
      | none => .error "Invalid node file: missing YAML frontmatter"
      | some j =>
        let header := rest.take j
        let after := rest.drop (j + 1)
        let bodyLines :=
          match after with
          | "" :: more => more
          | other => other
        let meta ← parseYamlLines header
        let title := titleOfBody bodyLines
        let content := joinNl (contentOfBody bodyLines)
        let id ← asStr (metaGet meta "id")
        let createdAt ← asStr (metaGet meta "created_at")
        let edges ← edgesOfMeta id createdAt (metaGet meta "edges")
        let ordering ←
          match metaGet meta "ordering" with
          | some (.obj entries) => do
            let sb ← asOptStr (metaGet entries "superseded_by")
            let sh ← asStr (metaGet entries "semantic_hash")
            let sf ← asStr (metaGet entries "source_freshness")
            pure ({ supersededBy := sb, semanticHash := sh,
                    sourceFreshness := sf } : NodeOrdering)
          | _ => .error "ordering outside the modelled fragment"
        let actions ← actionsOfMeta (metaGet meta "actions")
        let typeV ← asStr (metaGet meta "type")
        let version ← asNat (metaGet meta "version")
        let status ← asStr (metaGet meta "status")
        let validity ← asStr (metaGet meta "validity")
        let confidence ← asRat (metaGet meta "confidence")
        let priority ← asStr (metaGet meta "priority")
        let tags ← asStrList (metaGet meta "tags")
        let createdBy ← asOptStr (metaGet meta "created_by")
        let assignedTo ← asOptStr (metaGet meta "assigned_to")
        let lockedBy ← asOptStr (metaGet meta "locked_by")
        let modifiedAt ← asStr (metaGet meta "modified_at")
        let dueAt ← asOptStr (metaGet meta "due_at")
        pure
          { id := id, type := typeV, version := version, status := status,
            validity := validity, confidence := confidence, priority := priority,
            tags := tags, createdBy := createdBy, assignedTo := assignedTo,
            lockedBy := lockedBy, createdAt := createdAt,
            modifiedAt := modifiedAt, dueAt := dueAt, ordering := ordering,
            actions := actions, edges := edges, title := title,
            content := content, contentPreview := extractPreview content,
            filePath := filePath }

/-! ## The SQLite index (src/storage/sqlite-index.ts)

The logical table contents are lists of rows; `INSERT OR REPLACE` removes any
row with the conflicting primary key and appends, `INSERT OR IGNORE` appends
only when the key is absent.  `indexNode` runs in one transaction: upsert the
node row, delete-and-reinsert the node's source-side edges, then its tags. -/

structure NodeRow where
  id : String
  type : String
  status : String
  validity : String
  priority : String
  confidence : Rat
  createdBy : Option String
  assignedTo : Option String
  lockedBy : Option String
  createdAt : String
  modifiedAt : String
  dueAt : Option String
  title : String
  contentPreview : String
  semanticHash : String
  filePath : String
  version : Nat
  deriving Repr, DecidableEq, Inhabited

structure EdgeRow where
  id : String
  fromNode : String
  toNode : String
  type : String
  createdAt : String
  deriving Repr, DecidableEq, Inhabited

def nodeRowOf (n : Node) : NodeRow :=
  { id := n.id, type := n.type, status := n.status, validity := n.validity,
    priority := n.priority, confidence := n.confidence,
    createdBy := n.createdBy, assignedTo := n.assignedTo, lockedBy := n.lockedBy,
    createdAt := n.createdAt, modifiedAt := n.modifiedAt, dueAt := n.dueAt,
    title := n.title, contentPreview := n.contentPreview,
    semanticHash := n.ordering.semanticHash, filePath := n.filePath,
    version := n.version }

def edgeRowOf (e : Edge) : EdgeRow :=
  { id := e.id, fromNode := e.fromId, toNode := e.toId, type := e.type,
    createdAt := e.createdAt }

structure IndexState where
  nodes : List NodeRow := []
  edges : List EdgeRow := []
  tags : List (String × String) := []
  deriving Repr, DecidableEq, Inhabited

def indexNode (ix : IndexState) (n : Node) : IndexState :=
  let nodes := (ix.nodes.filter (fun r => ¬ r.id = n.id)) ++ [nodeRowOf n]
  let edges := n.edges.foldl
    (fun rows e => (rows.filter (fun r => ¬ r.id = e.id)) ++ [edgeRowOf e])
    (ix.edges.filter (fun r => ¬ r.fromNode = n.id))
  let tags := n.tags.foldl
    (fun rows t => if (n.id, t) ∈ rows then rows else rows ++ [(n.id, t)])
    (ix.tags.filter (fun p => ¬ p.1 = n.id))
  { nodes := nodes, edges := edges, tags := tags }

def indexRemoveNode (ix : IndexState) (id : String) : IndexState :=
  { nodes := ix.nodes.filter (fun r => ¬ r.id = id),
    edges := ix.edges.filter (fun r => ¬ r.fromNode = id),
    tags := ix.tags.filter (fun p => ¬ p.1 = id) }

/-! ## The graph facade (src/core/cube.ts over src/storage/file-storage.ts)

Files hold the *encoded markdown* keyed by node id (the path under
`nodes/<type>/` is injective in the id); `loadNode` decodes it, so an
undecodable file surfaces exactly where the source would throw.  The state
carries an `emitted` event channel so that claims about event emission are
statable: no operation of cube.ts writes to any event bus, and accordingly no
operation of the model touches `emitted`. -/

structure CubeState where
  files : List (String × String) := []
  index : IndexState := {}
  emitted : List String := []
  deriving Repr, DecidableEq, Inhabited

/-- `FileStorage.getNodePath` / `getRelativePath`: `nodes/{type}/{rest}.md`. -/
def nodeRelPath (id : String) : String :=
  let parts := (splitOnChar '/' id.data).map (fun l => (⟨l⟩ : String))
  "nodes/" ++ parts.headD "" ++ "/" ++ String.intercalate "/" parts.tail ++ ".md"

/-- `FileStorage.saveNode`: set the relative path, encode, write.  Returns the
node with its path set. -/
def saveNode (st : CubeState) (n : Node) : Node × CubeState :=
  let nodeWithPath := { n with filePath := nodeRelPath n.id }
  (nodeWithPath,
   { st with files := alSet st.files n.id (nodeToMarkdown nodeWithPath) })

/-- `FileStorage.loadNode`: `null` when the file is absent, otherwise decode
(a decode exception propagates). -/
def loadNode (st : CubeState) (id : String) : Except String (Option Node) :=
  match alGet st.files id with
  | none => .ok none
  | some markdown => (markdownToNode markdown (nodeRelPath id)).map some

def nodeExists (st : CubeState) (id : String) : Bool := alHas st.files id

/-- `OperationResult<T>`. -/
structure OpResult (α : Type) where
  success : Bool
  data : Option α := none
  error : Option String := none
  deriving Repr, DecidableEq, Inhabited

/-- The inline-edge records of `CreateNodeInput` (source field `to` is `toId`). -/
structure CreateEdgeInput where
  type : String
  toId : String
  metadata : Option (List (String × String)) := none
  deriving Repr, DecidableEq, Inhabited

/-- `CreateNodeInput` (the facade's create record; it carries no `createdBy`). -/
structure CubeCreateInput where
  type : String
  title : String
  content : Option String := none
  status : Option String := none
  priority : Option String := none
  tags : Option (List String) := none
  assignedTo : Option String := none
  dueAt : Option String := none
  edges : Option (List CreateEdgeInput) := none
  deriving Repr, DecidableEq, Inhabited

/-- `Cube.create`: build the node, attach inline edges, save, index.  The
try/catch of the source can only catch exceptions, and no step here throws, so
the operation always succeeds.  Nothing is emitted. -/
def cubeCreate (st : CubeState) (input : CubeCreateInput) (now : String)
    (nowMs : Nat) : OpResult Node × CubeState :=
  let node := createNode
    { type := input.type, title := input.title, content := input.content,
      status := input.status, priority := input.priority, tags := input.tags,
      assignedTo := input.assignedTo, dueAt := input.dueAt } now nowMs
  let nodeWithEdges := (input.edges.getD []).foldl
    (fun n e => addEdge n e.type e.toId e.metadata now) node
  let (saved, st1) := saveNode st nodeWithEdges
  ({ success := true, data := some saved },
   { st1 with index := indexNode st1.index saved })

/-- `Cube.get`. -/
def cubeGet (st : CubeState) (id : String) : Except String (OpResult Node) :=
  match loadNode st id with
  | .error e => .error e
  | .ok none => .ok { success := false, error := some ("Node not found: " ++ id) }
  | .ok (some n) => .ok { success := true, data := some n }

/-- `Cube.update`. -/
def cubeUpdate (st : CubeState) (id : String) (u : UpdateInput) (now : String) :
    Except String (OpResult Node × CubeState) :=
  match loadNode st id with
  | .error e => .error e
  | .ok none =>
    .ok ({ success := false, error := some ("Node not found: " ++ id) }, st)
  | .ok (some existing) =>
    let updated := updateNode existing u now
    let (saved, st1) := saveNode st updated
    .ok ({ success := true, data := some saved },
         { st1 with index := indexNode st1.index saved })

/-- `Cube.delete` (no decode happens on delete). -/
def cubeDelete (st : CubeState) (id : String) : OpResult Unit × CubeState :=
  if nodeExists st id then
    ({ success := true },
     { st with files := alDel st.files id, index := indexRemoveNode st.index id })
  else ({ success := false, error := some ("Node not found: " ++ id) }, st)

/-- `Cube.link`: verify both ends, reject an existing same-typed edge, append,
save, reindex.  Nothing is emitted. -/
def cubeLink (st : CubeState) (fromId etype toId : String)
    (metadata : Option (List (String × String))) (now : String) :
    Except String (OpResult Node × CubeState) :=
  match loadNode st fromId with
  | .error e => .error e
  | .ok none =>
    .ok ({ success := false, error := some ("Source node not found: " ++ fromId) }, st)
  | .ok (some fromNode) =>
    if ¬ nodeExists st toId then
      .ok ({ success := false, error := some ("Target node not found: " ++ toId) }, st)
    else if (fromNode.edges.find? (fun e => e.type = etype ∧ e.toId = toId)).isSome then
      .ok ({ success := false,
             error := some ("Edge already exists: " ++ fromId ++ " --" ++ etype
               ++ "--> " ++ toId) }, st)
    else
      let updated := addEdge fromNode etype toId metadata now
      let (saved, st1) := saveNode st updated
      .ok ({ success := true, data := some saved },
           { st1 with index := indexNode st1.index saved })

/-- `Cube.unlink`: find the edge by its deterministic id, remove, save,
reindex.  Nothing is emitted. -/
def cubeUnlink (st : CubeState) (fromId etype toId : String) (now : String) :
    Except String (OpResult Node × CubeState) :=
  match loadNode st fromId with
  | .error e => .error e
  | .ok none =>
    .ok ({ success := false, error := some ("Source node not found: " ++ fromId) }, st)
  | .ok (some fromNode) =>
    let edgeId := fromId ++ "--" ++ etype ++ "-->" ++ toId
    if (fromNode.edges.find? (fun e => e.id = edgeId)).isNone then
      .ok ({ success := false, error := some ("Edge not found: " ++ edgeId) }, st)
    else
      let updated := removeEdge fromNode edgeId now
      let (saved, st1) := saveNode st updated
      .ok ({ success := true, data := some saved },
           { st1 with index := indexNode st1.index saved })

/-- The `emitted` channel after an operation that may throw: an exception
leaves the state as it was at the throw point (no modelled operation mutates
before its decode). -/
def emittedAfter {α : Type} (r : Except String (α × CubeState)) (st : CubeState) :
    List String :=
  match r with
  | .ok (_, st') => st'.emitted
  | .error _ => st.emitted

/-! ## The trigger engine (src/events/triggers.ts)

Timestamps (`Date.now()`, `lastFiredAt` as an ISO string re-parsed by
`checkCooldown`) are milliseconds.  A processing call uses a single instant for
the cooldown check and for the `lastFiredAt` it records (the source reads the
clock twice a few statements apart).  Action execution itself — looked up in
the executor catalog and awaited — is modelled as succeeding; the `invalidate`
executor, which the claims inspect, is embedded separately as
`invalidateExec`. -/

structure TriggerHasEdge where
  type : String
  direction : String
  deriving Repr, DecidableEq, Inhabited

/-- `TriggerCondition`; a scalar matcher in the source is normalized to the
singleton list (`Array.isArray(x) ? x : [x]`).  The declared `custom` field is
never evaluated by `checkConditions` and is omitted. -/
structure TriggerCondition where
  nodeType : Option (List String) := none
  status : Option (List String) := none
  validity : Option (List String) := none
  tags : Option (List String) := none
  tagsAny : Option (List String) := none
  hasEdge : Option TriggerHasEdge := none
  deriving Repr, DecidableEq, Inhabited

/-- A trigger rule.  `events` normalizes `EventType | EventType[]`;
`cooldownMs = 0` covers both `0` and an absent field (identically falsy);
`lastFiredAt` is the recorded instant in ms.  Actions are carried as their
`type` tags (the `config` bags feed only the executors). -/
structure Trigger where
  id : String
  name : String
  enabled : Bool
  events : List String
  conditions : Option TriggerCondition := none
  actions : List String := []
  priority : Int := 0
  cooldownMs : Nat := 0
  lastFiredAt : Option Int := none
  deriving Repr, DecidableEq, Inhabited

/-- An event as the trigger engine sees it: its type tag and the node payload
that `getNodeFromEvent` can extract (`node.created` / `node.deleted` carry one;
every other type yields none). -/
structure TrigEvent where
  type : String
  node : Option Node := none
  deriving Repr, DecidableEq, Inhabited

def getNodeFromEvent (ev : TrigEvent) : Option Node :=
  if ev.type = "node.created" ∨ ev.type = "node.deleted" then ev.node else none

def eventMatchesTrigger (t : Trigger) (ev : TrigEvent) : Bool :=
  ev.type ∈ t.events

/-- `checkCooldown`: pass when the cooldown or the last-fired stamp is unset,
else require `now − lastFiredAt ≥ cooldownMs`. -/
def checkCooldown (t : Trigger) (nowMs : Int) : Bool :=
  match t.lastFiredAt with
  | none => true
  | some lastFired =>
    if t.cooldownMs = 0 then true
    else decide (nowMs - lastFired ≥ (t.cooldownMs : Int))

def checkConditions (t : Trigger) (ev : TrigEvent) : Bool :=
  match t.conditions with
  | none => true
  | some c =>
    match getNodeFromEvent ev with
    | none =>
      -- conditions that require a node reject the rule when there is none
      !(c.nodeType.isSome || c.status.isSome || c.validity.isSome ||
        c.tags.isSome || c.tagsAny.isSome || c.hasEdge.isSome)
    | some node =>
      (match c.nodeType with
       | none => true
       | some types => node.type ∈ types) &&
      (match c.status with
       | none => true
       | some statuses => node.status ∈ statuses) &&
      (match c.validity with
       | none => true
       | some validities => node.validity ∈ validities) &&
      (match c.tags with
       | none => true
       | some tags => tags = [] || tags.all (fun tag => tag ∈ node.tags)) &&
      (match c.tagsAny with
       | none => true
       | some tags => tags = [] || tags.any (fun tag => tag ∈ node.tags)) &&
      (match c.hasEdge with
       | none => true
       | some he => node.edges.any (fun e =>
           e.type = he.type &&
           (if he.direction = "out" then e.fromId = node.id
            else if he.direction = "in" then e.toId = node.id
            else true)))

/-- One trigger's processing of one event: the gate of the dispatch loop and,
on firing, the `lastFiredAt := now` write. -/
def stepTrigger (nowMs : Int) (ev : TrigEvent) (t : Trigger) : Trigger × Bool :=
  if t.enabled ∧ eventMatchesTrigger t ev ∧ checkCooldown t nowMs
      ∧ checkConditions t ev then
    ({ t with lastFiredAt := some nowMs }, true)
  else (t, false)

/-- `processEvent`: skip `trigger.fired` / `trigger.error` (loop prevention),
walk the rules sorted by priority descending (stable), and collect the
activated ids.  Each loop iteration reads and writes only its own rule object
(the registry is a `Map` keyed by id), so the walk is presented per-rule. -/
def processEvent (ts : List Trigger) (nowMs : Int) (ev : TrigEvent) :
    List Trigger × List String :=
  if ev.type = "trigger.fired" ∨ ev.type = "trigger.error" then (ts, [])
  else
    let sorted := sortByDesc (fun t => t.priority) ts
    (ts.map (fun t => (stepTrigger nowMs ev t).1),
     (sorted.filter (fun t => (stepTrigger nowMs ev t).2)).map (fun t => t.id))

/-- A storm of events: fold `processEvent` and log each activation with the
instant it happened. -/
def processEvents (ts : List Trigger) :
    List (Int × TrigEvent) → List Trigger × List (Int × String)
  | [] => (ts, [])
  | (now, ev) :: rest =>
    let (ts', acts) := processEvent ts now ev
    let (tsF, actsRest) := processEvents ts' rest
    (tsF, acts.map (fun a => (now, a)) ++ actsRest)

/-- The instants at which the trigger named `id` fired. -/
def firingTimes (ts : List Trigger) (evs : List (Int × TrigEvent)) (id : String) :
    List Int :=
  (((processEvents ts evs).2).filter (fun p => p.2 = id)).map (fun p => p.1)

/-- The `invalidate` action executor (`registerDefaultExecutors`): load the
target node, take *its own* edges with `type === 'documents' && e.to ===
node.id`, and mark each edge's `from` node `validity='stale'` through the
facade.  The `nodeId` argument is the interpolated `config.nodeId`. -/
def invalidateExec (cube : CubeState) (nodeId : String) (now : String) :
    Except String CubeState :=
  match cubeGet cube nodeId with
  | .error e => .error e
  | .ok r =>
    if !r.success then .ok cube
    else
      match r.data with
      | none => .ok cube
      | some node =>
        let docsEdges := node.edges.filter
          (fun e => e.type = "documents" ∧ e.toId = node.id)
        docsEdges.foldlM
          (fun st e =>
            (cubeUpdate st e.fromId { validity := some "stale" } now).map
              (fun p => p.2))
          cube

/-! ## Agent registry and work queue (src/agents/registry.ts, work-queue.ts)

Agent state persistence (`saveState` to disk) mirrors the in-memory state and
is not modelled separately.  Work-item timestamps (`addedAt`, `claimedAt`),
stored as ISO strings of an instant and re-parsed with `new Date(..).getTime()`
(mutually inverse), are milliseconds.  `Date.now()` is an explicit `nowMs`;
where a facade call needs `new Date().toISOString()` the same instant is
passed as `nowIso`. -/

structure AgentStats where
  tasksCompleted : Nat := 0
  tasksFailed : Nat := 0
  avgCompletionTimeMs : Int := 0
  lastActiveAt : Option Int := none
  deriving Repr, DecidableEq, Inhabited

structure AgentState where
  status : String := "idle"
  claimedTasks : List String := []
  stats : AgentStats := {}
  lastHeartbeat : Option Int := none
  heartbeatIntervalMs : Int := 60000
  deriving Repr, DecidableEq, Inhabited

structure AgentCapabilities where
  nodeTypes : List String := ["task"]
  edgeTypes : List String := ["implements", "blocks", "depends-on"]
  tags : List String := []
  maxConcurrent : Nat := 1
  canCreate : Bool := false
  canDelete : Bool := false
  priorityBoost : Int := 0
  deriving Repr, DecidableEq, Inhabited

structure Agent where
  id : String
  name : String
  role : String
  capabilities : AgentCapabilities := {}
  state : AgentState := {}
  deriving Repr, DecidableEq, Inhabited

/-- The registry's agent table (a `Map` keyed by id, insertion-ordered). -/
def registryGet (agents : List Agent) (id : String) : Option Agent :=
  agents.find? (fun a => a.id = id)

/-- `AgentRegistry.addClaimedTask`: record the claim (if new) and move the
agent to `working`. -/
def addClaimedTask (agents : List Agent) (agentId taskId : String) : List Agent :=
  agents.map (fun a =>
    if a.id = agentId ∧ taskId ∉ a.state.claimedTasks then
      { a with state := { a.state with
          claimedTasks := a.state.claimedTasks ++ [taskId],
          status := "working" } }
    else a)

/-- `AgentRegistry.removeClaimedTask`: drop the claim, bump the
completed/failed counter, and return to `idle` when no claims remain.  A task
the agent does not hold leaves the agent unchanged. -/
def removeClaimedTask (agents : List Agent) (agentId taskId : String)
    (completed : Bool) : List Agent :=
  agents.map (fun a =>
    if a.id = agentId ∧ taskId ∈ a.state.claimedTasks then
      let remaining := a.state.claimedTasks.erase taskId
      { a with state := { a.state with
          claimedTasks := remaining,
          stats :=
            if completed then
              { a.state.stats with
                tasksCompleted := a.state.stats.tasksCompleted + 1 }
            else
              { a.state.stats with
                tasksFailed := a.state.stats.tasksFailed + 1 },
          status := if remaining = [] then "idle" else a.state.status } }
    else a)

structure WorkItem where
  id : String
  taskId : String
  priority : Int
  addedAt : Int
  preferredAgent : Option String := none
  requiredRole : Option String := none
  requiredTags : Option (List String) := none
  deadline : Option Int := none
  timeout : Option Int := none
  status : String := "queued"
  claimedBy : Option String := none
  claimedAt : Option Int := none
  completedAt : Option Int := none
  error : Option String := none
  deriving Repr, DecidableEq, Inhabited

/-- The work queue's state: the live item table (a `Map` keyed by taskId), the
registry it consults, the cube it updates, and the counters it keeps. -/
structure WQState where
  items : List (String × WorkItem) := []
  agents : List Agent := []
  cube : CubeState := {}
  totalQueued : Nat := 0
  totalClaimed : Nat := 0
  totalCompleted : Nat := 0
  totalFailed : Nat := 0
  waitTimes : List Int := []
  deriving Repr, DecidableEq, Inhabited

def priorityValue (p : String) : Int :=
  if p = "critical" then 1000
  else if p = "high" then 100
  else if p = "normal" then 10
  else if p = "low" then 1
  else 10  -- `PRIORITY_VALUES[node.priority] || PRIORITY_VALUES.normal`

/-- `WorkQueue.calculatePriority`: base from the priority enum, a boost from
due-date proximity (`hoursUntilDue` comparisons are scaled to milliseconds),
and +20 per outgoing `blocks` edge.  An unparsable or absent `dueAt` is `NaN`
in the source, whose comparisons are all false. -/
def calculatePriority (node : Node) (nowMs : Int) : Int :=
  let base := priorityValue node.priority
  let dueBoost :=
    match node.dueAt with
    | none => 0
    | some s =>
      if s = "" then 0  -- empty string is falsy in `if (node.dueAt)`
      else
        match parseIsoMs s with
        | none => 0
        | some dueMs =>
          if dueMs - nowMs < 0 then 500
          else if dueMs - nowMs < 24 * 3600000 then 200
          else if dueMs - nowMs < 72 * 3600000 then 50
          else 0
  let blocking := (node.edges.filter (fun e => e.type = "blocks")).length
  base + dueBoost + 20 * blocking

structure EnqueueOpts where
  preferredAgent : Option String := none
  requiredRole : Option String := none
  requiredTags : Option (List String) := none
  deadline : Option Int := none
  timeout : Option Int := none
  deriving Repr, DecidableEq, Inhabited

/-- `WorkQueue.enqueue`: idempotent by taskId; the priority is computed from
the task node when the cube yields it, else the `normal` base.  `freshId`
stands for `randomUUID()`. -/
def wqEnqueue (st : WQState) (taskId : String) (opts : EnqueueOpts)
    (freshId : String) (nowMs : Int) : Except String (WorkItem × WQState) :=
  match alGet st.items taskId with
  | some existing => .ok (existing, st)
  | none =>
    match cubeGet st.cube taskId with
    | .error e => .error e
    | .ok r =>
      let priority :=
        match r.data with
        | some node => if r.success then calculatePriority node nowMs else 10
        | none => 10
      let item : WorkItem :=
        { id := freshId, taskId := taskId, priority := priority,
          addedAt := nowMs, preferredAgent := opts.preferredAgent,
          requiredRole := opts.requiredRole, requiredTags := opts.requiredTags,
          deadline := opts.deadline, timeout := opts.timeout,
          status := "queued" }
      .ok (item,
        { st with items := alSet st.items taskId item,
                  totalQueued := st.totalQueued + 1 })

/-- `WorkQueue.getNextFor`: for a known agent with a free slot, the matching
queued items sorted by priority descending (stable), first one or none. -/
def getNextFor (st : WQState) (agentId : String) : Option WorkItem :=
  match registryGet st.agents agentId with
  | none => none
  | some agent =>
    if agent.state.claimedTasks.length ≥ agent.capabilities.maxConcurrent then none
    else
      let candidates := (st.items.map Prod.snd).filter (fun item =>
        item.status = "queued" &&
        (match item.preferredAgent with
         | none => true
         | some pref => pref = agentId) &&
        (match item.requiredRole with
         | none => true
         | some role => agent.role = role) &&
        (match item.requiredTags with
         | none => true
         | some tags =>
           tags = [] || tags.any (fun tag => tag ∈ agent.capabilities.tags)))
      (sortByDesc (fun i => i.priority) candidates).head?

structure ClaimResult where
  success : Bool
  taskId : String
  error : Option String := none
  claimedBy : Option String := none
  claimedAt : Option Int := none
  expiresAt : Option Int := none
  deriving Repr, DecidableEq, Inhabited

/-- `WorkQueue.claim`: validate the agent, its concurrency, and the item's
`queued` state; mark the item claimed, update the agent, and move the graph
node to `status='claimed'` with `assignedTo`/`lockedBy` set to the agent. -/
def wqClaim (st : WQState) (agentId taskId : String) (timeoutMs : Option Int)
    (nowMs : Int) (nowIso : String) : Except String (ClaimResult × WQState) :=
  match registryGet st.agents agentId with
  | none => .ok ({ success := false, taskId := taskId,
                   error := some "Agent not found" }, st)
  | some agent =>
    if agent.state.claimedTasks.length ≥ agent.capabilities.maxConcurrent then
      .ok ({ success := false, taskId := taskId,
             error := some "Agent at max concurrent tasks" }, st)
    else
      match alGet st.items taskId with
      | none => .ok ({ success := false, taskId := taskId,
                       error := some "Task not in queue" }, st)
      | some item =>
        if item.status ≠ "queued" then
          .ok ({ success := false, taskId := taskId,
                 error := some ("Task already " ++ item.status),
                 claimedBy := item.claimedBy }, st)
        else
          let item' := { item with status := "claimed",
                                   claimedBy := some agentId,
                                   claimedAt := some nowMs }
          let expiresAt := timeoutMs.map (fun t => nowMs + t)
          let agents' := addClaimedTask st.agents agentId taskId
          match cubeUpdate st.cube taskId
              { status := some "claimed",
                assignedTo := some (some agentId),
                lockedBy := some (some agentId) } nowIso with
          | .error e => .error e
          | .ok (_, cube') =>
            .ok ({ success := true, taskId := taskId,
                   claimedBy := some agentId, claimedAt := some nowMs,
                   expiresAt := expiresAt },
                 { st with items := alSet st.items taskId item',
                           agents := agents', cube := cube',
                           totalClaimed := st.totalClaimed + 1,
                           waitTimes := st.waitTimes ++ [nowMs - item.addedAt] })

structure ReleaseRequest where
  agentId : String
  taskId : String
  reason : String
  newStatus : Option String := none
  error : Option String := none
  deriving Repr, DecidableEq, Inhabited

/-- `WorkQueue.release`: only the claiming agent may release.
`reason='completed'` and `reason='error'` are terminal (the item leaves the
table); any other reason returns the item to `queued` with its claim fields
cleared.  The graph node is updated only when a `newStatus` is supplied. -/
def wqRelease (st : WQState) (req : ReleaseRequest) (nowMs : Int)
    (nowIso : String) : Except String (Bool × WQState) :=
  match alGet st.items req.taskId with
  | none => .ok (false, st)
  | some item =>
    if item.claimedBy ≠ some req.agentId then .ok (false, st)
    else
      let completed := req.reason = "completed"
      let (item', counters) :=
        if completed then
          ({ item with status := "completed", completedAt := some nowMs },
           (st.totalCompleted + 1, st.totalFailed))
        else if req.reason = "error" then
          ({ item with status := "failed", error := req.error },
           (st.totalCompleted, st.totalFailed + 1))
        else
          ({ item with status := "queued", claimedBy := none,
                       claimedAt := none },
           (st.totalCompleted, st.totalFailed))
      let agents' := removeClaimedTask st.agents req.agentId req.taskId completed
      let afterCube : Except String CubeState :=
        match req.newStatus with
        | none => .ok st.cube
        | some ns =>
          (cubeUpdate st.cube req.taskId
            { status := some ns, lockedBy := some none } nowIso).map
            (fun p => p.2)
      match afterCube with
      | .error e => .error e
      | .ok cube' =>
        let items' :=
          if item'.status = "completed" ∨ item'.status = "failed" then
            alDel (alSet st.items req.taskId item') req.taskId
          else alSet st.items req.taskId item'
        .ok (true,
          { st with items := items', agents := agents', cube := cube',
                    totalCompleted := counters.1, totalFailed := counters.2 })

/-- `WorkQueue.transfer`: release with reason `reassign`, then claim for the
new agent. -/
def wqTransfer (st : WQState) (fromId toId taskId : String) (nowMs : Int)
    (nowIso : String) : Except String (ClaimResult × WQState) :=
  match wqRelease st { agentId := fromId, taskId := taskId, reason := "reassign" }
      nowMs nowIso with
  | .error e => .error e
  | .ok (released, st') =>
    if !released then
      .ok ({ success := false, taskId := taskId,
             error := some "Failed to release from current agent" }, st)
    else wqClaim st' toId taskId none nowMs nowIso

/-- `WorkQueue.checkExpired`: release every claimed item whose claim has
outlived its timeout (reason `timeout`, no `newStatus`), collecting the
released items (which the release itself has returned to `queued`). -/
def wqCheckExpired (st : WQState) (nowMs : Int) (nowIso : String) :
    Except String (List WorkItem × WQState) :=
  (st.items.map Prod.fst).foldlM
    (fun (acc : List WorkItem × WQState) taskId =>
      let (expired, cur) := acc
      match alGet cur.items taskId with
      | none => .ok acc
      | some item =>
        match item.timeout, item.claimedAt, item.claimedBy with
        | some timeout, some claimedAt, some claimedBy =>
          if item.status = "claimed" ∧ nowMs - claimedAt > timeout then
            match wqRelease cur
                { agentId := claimedBy, taskId := taskId, reason := "timeout" }
                nowMs nowIso with
            | .error e => .error e
            | .ok (_, cur') =>
              .ok (expired ++ (alGet cur'.items taskId).toList, cur')
          else .ok acc
        | _, _, _ => .ok acc)
    ([], st)

/-! ## The synthesis pipeline's dedup (src/synthesis/pipeline.ts)

`findSimilar` queries the cube for all nodes of the candidate's type (content
included) and then works on that list; the model takes the queried list as an
argument and embeds everything after the query.  JS `Set`s keep first
occurrences.  Similarity scores are JS numbers, i.e. IEEE-754 binary64: the
model computes them over an exact mantissa/exponent representation (`F64`),
rounding to nearest (ties to even) at every multiplication, addition and
division, and stores the resulting exact dyadic value as a `Rat` wherever the
source compares or sorts (an IEEE comparison compares exact values).
`dbl i u` is the exact value of the binary64 nearest `i/u`; it covers the
source's decimal literals (`0.3` is `dbl 3 10`, `0.95` is `dbl 19 20`) as
well as its rounded quotients. -/

/-- Fuel-based floor-log2 (the fuel `n` always suffices). -/
def natLog2Go : Nat → Nat → Nat
  | 0, _ => 0
  | fuel + 1, n => if n ≤ 1 then 0 else natLog2Go fuel (n / 2) + 1

def natLog2 (n : Nat) : Nat := natLog2Go n n

/-- A nonnegative binary64 value: zero (`⟨0, 0⟩`) or a normalized mantissa
`2^52 ≤ m < 2^53` with value `m·2^e`.  Every exponent arising in the modelled
computations stays far inside the normal range, so overflow and subnormals
never enter. -/
structure F64 where
  m : Nat
  e : Int
  deriving Repr, DecidableEq, Inhabited

/-- Round the exact value `m·2^e` to the nearest binary64, ties to even. -/
def normF64 (m : Nat) (e : Int) : F64 :=
  if m = 0 then ⟨0, 0⟩
  else
    let b := natLog2 m
    if b ≤ 52 then ⟨m * 2 ^ (52 - b), e - ((52 - b : Nat) : Int)⟩
    else
      let k := b - 52
      let q := m / 2 ^ k
      let r := m % 2 ^ k
      let half := 2 ^ (k - 1)
      let q1 := if half < r ∨ (r = half ∧ q % 2 = 1) then q + 1 else q
      if q1 = 2 ^ 53 then ⟨2 ^ 52, e + ((k : Nat) : Int) + 1⟩
      else ⟨q1, e + ((k : Nat) : Int)⟩

/-- The binary64 value `1`. -/
def f64One : F64 := ⟨2 ^ 52, -52⟩

def f64Mul (a b : F64) : F64 :=
  if a.m = 0 ∨ b.m = 0 then ⟨0, 0⟩ else normF64 (a.m * b.m) (a.e + b.e)

def f64Add (a b : F64) : F64 :=
  if a.m = 0 then b
  else if b.m = 0 then a
  else
    let e := min a.e b.e
    normF64 (a.m * 2 ^ (a.e - e).toNat + b.m * 2 ^ (b.e - e).toNat) e

/-- The correctly rounded binary64 quotient `i/u`: an exact integer quotient
with at least two guard bits, a sticky bit folded into the lowest bit, then
one rounding. -/
def f64OfNatDiv (i u : Nat) : F64 :=
  if i = 0 ∨ u = 0 then ⟨0, 0⟩
  else
    let s := 56 + natLog2 u
    let q := i * 2 ^ s / u
    let r := i * 2 ^ s % u
    normF64 (2 * q + (if r = 0 then 0 else 1)) (-(s : Int) - 1)

/-- The exact rational value of a binary64. -/
def ratOfF64 (x : F64) : Rat :=
  if 0 ≤ x.e then ((x.m * 2 ^ x.e.toNat : Nat) : Rat)
  else (x.m : Rat) / ((2 ^ (-x.e).toNat : Nat) : Rat)

/-- The exact value of the binary64 nearest `i/u`. -/
def dbl (i u : Nat) : Rat := ratOfF64 (f64OfNatDiv i u)

structure SynthesisConfig where
  minConfidence : Rat := 1/2
  deduplicationThreshold : Rat := dbl 4 5
  autoCreate : Bool := false
  requireApproval : Bool := true
  deriving Repr, DecidableEq, Inhabited

structure ExtractedNode where
  suggestedTitle : String
  suggestedContent : String
  suggestedTags : List String := []
  suggestedType : String := "task"
  confidence : Rat := 1
  suggestedPriority : Option String := none
  deriving Repr, DecidableEq, Inhabited

structure SimilarityMatch where
  existingNodeId : String
  existingTitle : String
  similarity : Rat
  matchType : String
  deriving Repr, DecidableEq, Inhabited

/-- `new Set(list)` keeping first occurrences. -/
def dedupFirst (l : List String) : List String :=
  l.foldl (fun acc w => if w ∈ acc then acc else acc ++ [w]) []

/-- Maximal non-whitespace runs of a character list (the accumulator carries
the open token, reversed). -/
def tokenizeWs (acc : List Char) : List Char → List String
  | [] => if acc = [] then [] else [⟨acc.reverse⟩]
  | c :: rest =>
    if isWs c then
      if acc = [] then tokenizeWs [] rest
      else (⟨acc.reverse⟩ : String) :: tokenizeWs [] rest
    else tokenizeWs (c :: acc) rest

/-- `a.split(/\s+/)` restricted to the tokens that survive the
`w.length > 2` filter (the split's possible leading empty token never does). -/
def wordsOf (s : String) : List String :=
  (tokenizeWs [] s.data).filter (fun w => w.length > 2)

/-- `stringSimilarity`: Jaccard of word sets, as the binary64 the division
produces (`1` and `0` are exact). -/
def stringSimilarity (a b : String) : F64 :=
  let wordsA := dedupFirst (wordsOf a)
  let wordsB := dedupFirst (wordsOf b)
  if wordsA.length = 0 ∧ wordsB.length = 0 then f64One
  else if wordsA.length = 0 ∨ wordsB.length = 0 then ⟨0, 0⟩
  else
    let inter := (wordsA.filter (fun w => w ∈ wordsB)).length
    let union := (dedupFirst (wordsA ++ wordsB)).length
    f64OfNatDiv inter union

/-- `calculateSimilarity`: `titleSim*0.5 + contentSim*0.3 + tagSim*0.2`,
evaluated left to right in binary64 (the literals `0.5`, `0.3`, `0.2` are the
binary64 values `dbl 1 2`, `dbl 3 10`, `dbl 1 5`; `Math.max` over integer
set sizes is exact). -/
def calculateSimilarity (extracted : ExtractedNode) (existing : Node) : F64 :=
  let titleSim := stringSimilarity (jsToLower extracted.suggestedTitle)
    (jsToLower existing.title)
  let contentSim := stringSimilarity (jsToLower extracted.suggestedContent)
    (jsToLower existing.content)
  let extractedTags := dedupFirst extracted.suggestedTags
  let existingTags := dedupFirst existing.tags
  let overlap := (extractedTags.filter (fun t => t ∈ existingTags)).length
  let tagSim := f64OfNatDiv overlap
    (max extractedTags.length (max existingTags.length 1))
  f64Add
    (f64Add (f64Mul titleSim (f64OfNatDiv 1 2)) (f64Mul contentSim (f64OfNatDiv 3 10)))
    (f64Mul tagSim (f64OfNatDiv 1 5))

/-- `findSimilar` after its cube query: matches strictly above the binary64
`0.3`, with the match type from the strict binary64 `0.95` / `0.7`
comparisons, sorted by similarity descending (stable), top 5. -/
def findSimilarFrom (extracted : ExtractedNode) (existing : List Node) :
    List SimilarityMatch :=
  let found := existing.filterMap (fun e =>
    let similarity := ratOfF64 (calculateSimilarity extracted e)
    if similarity > dbl 3 10 then
      some { existingNodeId := e.id, existingTitle := e.title,
             similarity := similarity,
             matchType :=
               if similarity > dbl 19 20 then "exact"
               else if similarity > dbl 7 10 then "semantic"
               else "partial" }
    else none)
  (sortByDesc (fun m => m.similarity) found).take 5

/-- `getRecommendation`. -/
def getRecommendation (config : SynthesisConfig)
    (found : List SimilarityMatch) : String :=
  match found.head? with
  | none => "create"
  | some topMatch =>
    if topMatch.similarity ≥ config.deduplicationThreshold then
      if topMatch.matchType = "exact" then "skip" else "merge"
    else if topMatch.similarity ≥ dbl 1 2 then "link"
    else "create"

/-! ## Concrete scenario states used by the theorems -/

/-- A fixed instant, used wherever a scenario needs `new Date().toISOString()`. -/
def demoIso : String := "2025-01-01T00:00:00.000Z"

/-! The S3 trigger-fan-out graph: a `code` node `c1`, a `doc` node `d1`, and
the link `d1 --documents--> c1`. -/

def s3C1Id : String := generateId "code" "C One" 0

def s3D1Id : String := generateId "doc" "D One" 1

def s3StateBeforeLink : CubeState :=
  (cubeCreate
    ((cubeCreate {} { type := "code", title := "C One", content := some "code body" }
      demoIso 0).2)
    { type := "doc", title := "D One", content := some "doc body" } demoIso 1).2

def s3State : CubeState :=
  match cubeLink s3StateBeforeLink s3D1Id "documents" s3C1Id none demoIso with
  | .ok (_, st) => st
  | .error _ => s3StateBeforeLink

/-- The `validity` value recorded in `d1`'s stored header (its file holds an
edge and cannot be fully decoded, but its header still parses). -/
def s3D1HeaderValidity : Option YamlValue :=
  match alGet s3State.files s3D1Id with
  | some md =>
    (match splitNl md with
     | _ :: rest =>
       (match findCloseIdx rest with
        | some j =>
          (match parseYamlLines (rest.take j) with
           | .ok meta => metaGet meta "validity"
           | .error _ => none)
        | none => none)
     | [] => none)
  | none => none

/-! The C3 failing input: a legitimately constructed node carrying one edge. -/

def c3Node : Node :=
  addEdge (createNode { type := "task", title := "X" } demoIso 0)
    "blocks" "task/y-000000" none demoIso

/-! The C6 scenario: nodes `a` and `b`, then `link(a, depends-on, b)`. -/

def c6IdA : String := generateId "task" "Alpha" 0

def c6IdB : String := generateId "task" "Beta" 1

def c6State : CubeState :=
  (cubeCreate
    ((cubeCreate {} { type := "task", title := "Alpha" } demoIso 0).2)
    { type := "task", title := "Beta" } demoIso 1).2

def c6LinkResult : Except String (OpResult Node × CubeState) :=
  cubeLink c6State c6IdA "depends-on" c6IdB none demoIso

def c6Linked : CubeState :=
  match c6LinkResult with
  | .ok (_, st) => st
  | .error _ => c6State

/-! The S4 work-queue scenario: `t1` critical, `t2` high and one hour overdue,
`t3` high with no due date, enqueued at `demoNowMs` = 1970-01-02T00:00:00Z. -/

def demoNowMs : Int := 86400000

def s4T1 : String := generateId "task" "T One" 10

def s4T2 : String := generateId "task" "T Two" 11

def s4T3 : String := generateId "task" "T Three" 12

def s4Cube : CubeState :=
  (cubeCreate
    ((cubeCreate
      ((cubeCreate {} { type := "task", title := "T One", priority := some "critical" }
        demoIso 10).2)
      { type := "task", title := "T Two", priority := some "high",
        dueAt := some "1970-01-01T23:00:00.000Z" } demoIso 11).2)
    { type := "task", title := "T Three", priority := some "high" } demoIso 12).2

def s4Agent : Agent :=
  { id := "a1", name := "A", role := "code-agent",
    capabilities := { maxConcurrent := 5 } }

def s4Enqueued : WQState :=
  let st0 : WQState := { agents := [s4Agent], cube := s4Cube }
  let st1 := match wqEnqueue st0 s4T1 {} "w1" demoNowMs with
    | .ok (_, st) => st | .error _ => st0
  let st2 := match wqEnqueue st1 s4T2 {} "w2" demoNowMs with
    | .ok (_, st) => st | .error _ => st1
  match wqEnqueue st2 s4T3 {} "w3" demoNowMs with
    | .ok (_, st) => st | .error _ => st2

def s4AfterT1 : WQState :=
  match wqClaim s4Enqueued "a1" s4T1 none demoNowMs demoIso with
  | .ok (_, st) => st | .error _ => s4Enqueued

def s4AfterT2 : WQState :=
  match wqClaim s4AfterT1 "a1" s4T2 none demoNowMs demoIso with
  | .ok (_, st) => st | .error _ => s4AfterT1

/-! The C10 scenario: `t1` enqueued with a 50 ms timeout and claimed; released
200 ms later by `checkExpired`'s timeout path. -/

def c10Claimed : WQState :=
  let st0 : WQState := { agents := [s4Agent], cube := s4Cube }
  let st1 := match wqEnqueue st0 s4T1 { timeout := some 50 } "w1" demoNowMs with
    | .ok (_, st) => st | .error _ => st0
  match wqClaim st1 "a1" s4T1 (some 50) demoNowMs demoIso with
  | .ok (_, st) => st | .error _ => st1

/-- The concrete claimed work item of the C10 scenario. -/
def c10Item : WorkItem :=
  { id := "w1", taskId := s4T1, priority := 1000, addedAt := demoNowMs,
    timeout := some 50, status := "claimed", claimedBy := some "a1",
    claimedAt := some demoNowMs }

/-! The C9 boundary input: the candidate title shares 9 of the existing
title's 10 words (`titleSim = fl(9/10)`), content and tags are identical
(`contentSim = tagSim = 1`), and the binary64 weighted sum
`fl(9/10)*0.5 + 1*0.3 + 1*0.2` lands *exactly* on the binary64 nearest
`0.95` (unlike, say, `1*0.5 + 1*0.3 + 0.75*0.2`, which rounds to the double
just above it). -/

def c9Extracted : ExtractedNode :=
  { suggestedTitle := "alpha beta gamma delta epsil zeta etaaa theta iotaa kappa",
    suggestedContent := "gamma delta",
    suggestedTags := ["aaa", "bbb", "ccc", "ddd"] }

def c9Existing : Node :=
  createNode
    { type := "task",
      title := "alpha beta gamma delta epsil zeta etaaa theta iotaa",
      content := some "gamma delta",
      tags := some ["aaa", "bbb", "ccc", "ddd"] } demoIso 0

/-- The match record `findSimilar` produces for the C9 boundary input: its
similarity is exactly the binary64 `0.95`, which is *not* `> 0.95`, so the
match type is `semantic`. -/
def c9Match : SimilarityMatch :=
  { existingNodeId := c9Existing.id, existingTitle := c9Existing.title,
    similarity := dbl 19 20, matchType := "semantic" }

/-! The C4 base file: an explicit well-formed node record whose `status` field
is replaced by an arbitrary scalar; `c4File s` is its encoded file. -/

def c4Base : Node :=
  { id := "doc/d-abcdef", type := "doc", version := 1, status := "pending",
    validity := "current", confidence := 1, priority := "normal", tags := [],
    createdBy := none, assignedTo := none, lockedBy := none,
    createdAt := "2025-01-01T00:00:00.000Z",
    modifiedAt := "2025-01-01T00:00:00.000Z", dueAt := none,
    ordering := { supersededBy := none, semanticHash := "0123456789abcdef",
                  sourceFreshness := "2025-01-01" },
    actions := [], edges := [], title := "D", content := "Body.",
    contentPreview := extractPreview "Body.", filePath := "" }

def c4File (s : String) : String := nodeToMarkdown { c4Base with status := s }

/-! The C8 witness storm: one rule with a 100 ms cooldown under six matching
`node.created` events at instants 0, 50, 99, 100, 150, 200 ms. -/

def c8Trig : Trigger :=
  { id := "T", name := "T", enabled := true, events := ["node.created"],
    cooldownMs := 100 }

def c8Ev : TrigEvent :=
  { type := "node.created", node := some c9Existing }

def c8Storm : List (Int × TrigEvent) :=
  [(0, c8Ev), (50, c8Ev), (99, c8Ev), (100, c8Ev), (150, c8Ev), (200, c8Ev)]

/-! ## Spec-side definitions for C7

These two character classes and the id pattern are transcribed from the
*spec's* words (`{type}/[-a-z0-9]{1,50}-[0-9a-f]{6}`), to be compared with
what `generateId` produces. -/

/-- A character of the spec's `[-a-z0-9]` class. -/
def isSlugChar (c : Char) : Bool :=
  c = '-' || ('a' ≤ c && c ≤ 'z') || ('0' ≤ c && c ≤ '9')

/-- A character of the spec's `[0-9a-f]` class. -/
def isHexChar (c : Char) : Bool :=
  ('0' ≤ c && c ≤ '9') || ('a' ≤ c && c ≤ 'f')

/-- The spec's id shape `{type}/[-a-z0-9]{1,50}-[0-9a-f]{6}`, read as an
anchored match: after the literal `type ++ "/"`, a slug of 1 to 50 characters
from `[-a-z0-9]`, one `'-'`, and exactly six `[0-9a-f]` characters ending the
string (the six-hex tail and its preceding dash make the split unique). -/
def idMatchesPattern (type id : String) : Bool :=
  let pre := (type ++ "/").data
  let d := id.data
  if d.take pre.length = pre then
    let body := d.drop pre.length
    let n := body.length
    decide (8 ≤ n) && decide (n - 7 ≤ 50) &&
      (body.take (n - 7)).all isSlugChar &&
      decide ((body.drop (n - 7)).take 1 = ['-']) &&
      (body.drop (n - 6)).all isHexChar
  else false

/-! # Theorems settling the claims -/

/-- C1.  The claim says every successful facade mutation emits its domain
event (`node.created`, `node.updated`, `node.deleted`, `edge.created`,
`edge.deleted`) after the file and index are updated.  The facade holds no
event bus at all: every operation leaves the event channel exactly as it was,
and in particular a successful `create` — shown succeeding for every input —
emits nothing.  (The CLI and the orchestrator expect these events:
`cli/index.ts` calls a `cube.getEventBus()` that does not exist, and
`orchestrator.ts` subscribes to `node.created`, which nothing publishes.) -/
theorem c1_facade_emits_no_events :
    (∀ (st : CubeState) (input : CubeCreateInput) (now : String) (nowMs : Nat),
      (cubeCreate st input now nowMs).1.success = true ∧
      (cubeCreate st input now nowMs).2.emitted = st.emitted) ∧
    (∀ (st : CubeState) (id : String) (u : UpdateInput) (now : String),
      emittedAfter (cubeUpdate st id u now) st = st.emitted) ∧
    (∀ (st : CubeState) (id : String),
      (cubeDelete st id).2.emitted = st.emitted) ∧
    (∀ (st : CubeState) (fromId etype toId : String)
      (md : Option (List (String × String))) (now : String),
      emittedAfter (cubeLink st fromId etype toId md now) st = st.emitted) ∧
    (∀ (st : CubeState) (fromId etype toId : String) (now : String),
      emittedAfter (cubeUnlink st fromId etype toId now) st = st.emitted) := by
  refine ⟨fun st input now nowMs => ⟨rfl, rfl⟩, ?_, ?_, ?_, ?_⟩
  · intro st id u now
    unfold emittedAfter cubeUpdate
    rcases loadNode st id with e | o
    · rfl
    · rcases o with _ | n <;> rfl
  · intro st id
    unfold cubeDelete
    by_cases h : nodeExists st id = true <;> simp [h]
  · intro st fromId etype toId md now
    unfold emittedAfter cubeLink
    rcases loadNode st fromId with e | o
    · rfl
    · rcases o with _ | n
      · rfl
      · dsimp only
        split_ifs <;> rfl
  · intro st fromId etype toId now
    unfold emittedAfter cubeUnlink
    rcases loadNode st fromId with e | o
    · rfl
    · rcases o with _ | n
      · rfl
      · dsimp only
        split_ifs <;> rfl

/-- C2.  In the S3 graph (`d1 --documents--> c1`), executing the `invalidate`
action for `c1` is a no-op: the executor filters `c1`'s *own* edges with
`e.type === 'documents' && e.to === node.id`, a condition only a self-loop
could meet, so it never sees `d1`'s edge and `d1`'s stored validity stays
`current` instead of transitioning to `stale` as the claim requires. -/
theorem c2_invalidate_leaves_documenting_node_unchanged :
    (s3State.index.edges.filter (fun r => r.fromNode = s3D1Id)).map
        (fun r => (r.type, r.toNode)) = [("documents", s3C1Id)] ∧
    invalidateExec s3State s3C1Id demoIso = .ok s3State ∧
    s3D1HeaderValidity = some (.str "current") := by
  refine ⟨by decide, by rfl, by rfl⟩

/-- C3.  `decode(encode(n))` does not reproduce `n` for a legitimately
constructed node with an edge: the writer emits the edge list as `- ` items
whose continuation lines the parser swallows into a nested object, so
`(meta.edges || []).map` throws a `TypeError` and decoding fails outright
(the repository's own round-trip test only covers an edge-free node). -/
theorem c3_roundtrip_fails_with_edges :
    c3Node.edges.length = 1 ∧
    (markdownToNode (nodeToMarkdown c3Node) "nodes/task/x.md").isOk = false := by
  exact ⟨by decide, by decide⟩

/-- C5 (counterexample).  With `t1` critical (priority 1000), `t2` high and
one hour overdue (100 + 500 = 600) and `t3` high (100) all queued,
`getNextFor` returns `t1`, not `t2` as the claim (spec scenario S4) states:
the critical base of 1000 dominates the overdue boost. -/
theorem c5_counterexample_first_is_t1 :
    alHas s4Enqueued.items s4T2 = true ∧
    (alGet s4Enqueued.items s4T1).map (fun i => i.priority) = some 1000 ∧
    (alGet s4Enqueued.items s4T2).map (fun i => i.priority) = some 600 ∧
    (alGet s4Enqueued.items s4T3).map (fun i => i.priority) = some 100 ∧
    (getNextFor s4Enqueued "a1").map (fun i => i.taskId) = some s4T1 ∧
    ¬ s4T1 = s4T2 := by
  refine ⟨by decide, by decide, by decide, by decide, by decide, by decide⟩

/-- C5 (amended).  In the S4 scenario the queue hands out `t1` first (base
1000), then `t2` (600, the overdue boost over high), then `t3` (100): the
base priority of `critical` dominates the due boost, not the other way
around. -/
theorem c5_amended_order_t1_t2_t3 :
    (getNextFor s4Enqueued "a1").map (fun i => i.taskId) = some s4T1 ∧
    (getNextFor s4AfterT1 "a1").map (fun i => i.taskId) = some s4T2 ∧
    (getNextFor s4AfterT2 "a1").map (fun i => i.taskId) = some s4T3 := by
  refine ⟨by decide, by decide, by decide⟩

/-- C6.  `link(a,t,b)` succeeds, but it writes `a`'s file with an edge block
the codec cannot re-read, so the follow-up `unlink(a,t,b)` — which must load
`a` — throws instead of restoring `a`'s edge set, and a second `link(a,t,b)`
throws as well instead of returning the `Conflict` ("Edge already exists")
error.  The claimed algebra is what the facade's code intends (the duplicate
check is right there) and is broken by the serialization defect of C3. -/
theorem c6_link_unlink_defect :
    (match c6LinkResult with
     | .ok (r, _) => r.success
     | .error _ => false) = true ∧
    (cubeUnlink c6Linked c6IdA "depends-on" c6IdB demoIso).isOk = false ∧
    (cubeLink c6Linked c6IdA "depends-on" c6IdB none demoIso).isOk = false := by
  refine ⟨by rfl, by decide, by decide⟩

/-- Replacing in place reaches the lookup. -/
theorem alGet_map_replace {α : Type} (m : List (String × α)) (k : String) (v : α)
    (hk : alHas m k = true) :
    alGet (m.map (fun p => if p.1 = k then (k, v) else p)) k = some v := by
  induction m with
  | nil => simp [alHas] at hk
  | cons p m ih =>
    by_cases hp : p.1 = k
    · simp [alGet, hp]
    · have hk' : alHas m k = true := by
        simpa [alHas, List.find?_cons, hp] using hk
      simpa [alGet, hp] using ih hk'

/-- Appending a fresh key reaches the lookup. -/
theorem alGet_append_single {α : Type} (m : List (String × α)) (k : String) (v : α)
    (hk : alHas m k = false) :
    alGet (m ++ [(k, v)]) k = some v := by
  induction m with
  | nil => simp [alGet]
  | cons p m ih =>
    by_cases hp : p.1 = k
    · simp [alHas, List.find?_cons, hp] at hk
    · have hk' : alHas m k = false := by
        simpa [alHas, List.find?_cons, hp] using hk
      simpa [alGet, hp] using ih hk'

/-- Looking up the key just written. -/
theorem alGet_alSet_self {α : Type} (m : List (String × α)) (k : String) (v : α) :
    alGet (alSet m k v) k = some v := by
  unfold alSet
  by_cases hk : alHas m k = true
  · rw [if_pos hk]; exact alGet_map_replace m k v hk
  · rw [if_neg hk]
    exact alGet_append_single m k v (by simpa using hk)

/-- C10.  Releasing a claimed item with a non-terminal reason (anything other
than `completed` / `error`, e.g. `timeout` from `checkExpired` or `reassign`
from `transfer`) and no `newStatus` returns the item to `queued` with its
claim fields cleared and updates the agent through `removeClaimedTask`, while
the cube — and with it the graph task node's `status='claimed'`,
`assignedTo` and `lockedBy` — is left entirely untouched, because the node
update is guarded by `if (this.cube && newStatus)`. -/
theorem c10_release_nonterminal_frames_node
    (st : WQState) (req : ReleaseRequest) (nowMs : Int) (nowIso : String)
    (item : WorkItem)
    (hitem : alGet st.items req.taskId = some item)
    (hclaimed : item.claimedBy = some req.agentId)
    (hr1 : req.reason ≠ "completed") (hr2 : req.reason ≠ "error")
    (hns : req.newStatus = none) :
    wqRelease st req nowMs nowIso = .ok (true,
      { st with
        items := alSet st.items req.taskId
          { item with status := "queued", claimedBy := none, claimedAt := none },
        agents := removeClaimedTask st.agents req.agentId req.taskId false }) := by
  unfold wqRelease
  rw [hitem]
  dsimp only
  rw [if_neg (by simp [hclaimed]), if_neg hr1, if_neg hr2, hns]
  dsimp only
  rw [if_neg (by decide)]
  have hdec : decide (req.reason = "completed") = false := by simp [hr1]
  rw [hdec]

/-- Witness for C10 at the concrete scenario state. -/
theorem c10_release_witness :
    wqRelease c10Claimed { agentId := "a1", taskId := s4T1, reason := "timeout" }
        (demoNowMs + 200) demoIso = .ok (true,
      { c10Claimed with
        items := alSet c10Claimed.items s4T1
          { c10Item with status := "queued", claimedBy := none, claimedAt := none },
        agents := removeClaimedTask c10Claimed.agents "a1" s4T1 false }) :=
  c10_release_nonterminal_frames_node c10Claimed
    { agentId := "a1", taskId := s4T1, reason := "timeout" }
    (demoNowMs + 200) demoIso c10Item (by decide) (by decide) (by decide)
    (by decide) (by decide)

/-! ### C8: the cooldown guarantee -/

theorem insertDescBy_perm {α β : Type} [LinearOrder β] (key : α → β) (x : α)
    (l : List α) : (insertDescBy key x l).Perm (x :: l) := by
  induction l with
  | nil => simp [insertDescBy]
  | cons y ys ih =>
    unfold insertDescBy
    by_cases h : key y ≤ key x
    · simp [h]
    · rw [if_neg h]
      exact (List.Perm.cons y ih).trans (List.Perm.swap x y ys)

theorem sortByDesc_perm {α β : Type} [LinearOrder β] (key : α → β)
    (l : List α) : (sortByDesc key l).Perm l := by
  induction l with
  | nil => simp [sortByDesc]
  | cons x xs ih =>
    exact ((insertDescBy_perm key x (sortByDesc key xs)).trans
      (List.Perm.cons x ih))

/-- Filtering a mapped list. -/
theorem filter_of_map {α β : Type} (f : α → β) (p : β → Bool) (l : List α) :
    (l.map f).filter p = (l.filter (fun a => p (f a))).map f := by
  induction l with
  | nil => rfl
  | cons x xs ih =>
    by_cases h : p (f x) <;> simp [h, ih]

/-- With pairwise-distinct ids, the triggers with a given id that pass a test
are `[u]` or `[]` according to whether `u` passes it. -/
theorem filter_id_unique (ts : List Trigger) (u : Trigger) (i : String)
    (p : Trigger → Bool)
    (hnodup : (ts.map (fun t => t.id)).Nodup) (hmem : u ∈ ts) (hid : u.id = i) :
    ts.filter (fun t => p t && t.id = i) = if p u then [u] else [] := by
  induction ts with
  | nil => cases hmem
  | cons v ts ih =>
    rw [List.map_cons, List.nodup_cons] at hnodup
    rcases List.mem_cons.mp hmem with rfl | hmem'
    · have htail : ts.filter (fun t => p t && t.id = i) = [] := by
        apply List.filter_eq_nil_iff.mpr
        intro t ht
        have : t.id ∈ ts.map (fun t => t.id) := List.mem_map_of_mem _ ht
        have hne : t.id ≠ i := by
          intro hti
          exact hnodup.1 (by rw [← hti] at hid; rw [hid]; exact this)
        simp [hne]
      by_cases hp : p u
      · simp [List.filter_cons, hp, hid, htail]
      · simp [List.filter_cons, hp, hid, htail]
    · have hvne : v.id ≠ i := by
        intro hvi
        have : u.id ∈ ts.map (fun t => t.id) := List.mem_map_of_mem _ hmem'
        rw [hid, ← hvi] at this
        exact hnodup.1 this
      have hhead : (p v && decide (v.id = i)) = false := by simp [hvne]
      rw [List.filter_cons, hhead]
      simpa using ih hnodup.2 hmem'

/-- `stepTrigger` never changes a trigger's identity or cooldown. -/
theorem stepTrigger_id (nowMs : Int) (ev : TrigEvent) (t : Trigger) :
    (stepTrigger nowMs ev t).1.id = t.id ∧
    (stepTrigger nowMs ev t).1.cooldownMs = t.cooldownMs := by
  unfold stepTrigger
  split <;> exact ⟨rfl, rfl⟩

/-- Under a non-loop event, `processEvent` steps every rule and activates a
given id exactly when the unique rule carrying it fires. -/
theorem processEvent_spec (ts : List Trigger) (u : Trigger) (i : String)
    (nowMs : Int) (ev : TrigEvent)
    (hloop : ¬ (ev.type = "trigger.fired" ∨ ev.type = "trigger.error"))
    (hnodup : (ts.map (fun t => t.id)).Nodup) (hmem : u ∈ ts) (hid : u.id = i) :
    (processEvent ts nowMs ev).1 = ts.map (fun t => (stepTrigger nowMs ev t).1) ∧
    (processEvent ts nowMs ev).2.filter (fun a => a = i) =
      (if (stepTrigger nowMs ev u).2 then [i] else []) := by
  unfold processEvent
  rw [if_neg hloop]
  refine ⟨rfl, ?_⟩
  dsimp only
  rw [filter_of_map, List.filter_filter]
  have hpred : (fun a => decide (a.id = i) && (stepTrigger nowMs ev a).2) =
      (fun t => (stepTrigger nowMs ev t).2 && decide (t.id = i)) := by
    funext a; exact Bool.and_comm _ _
  rw [hpred]
  have hperm : ((sortByDesc (fun t => t.priority) ts).filter
      (fun t => (stepTrigger nowMs ev t).2 && t.id = i)).Perm
      (ts.filter (fun t => (stepTrigger nowMs ev t).2 && t.id = i)) :=
    (sortByDesc_perm (fun t => t.priority) ts).filter _
  rw [filter_id_unique ts u i _ hnodup hmem hid] at hperm
  by_cases hf : (stepTrigger nowMs ev u).2
  · rw [if_pos hf] at hperm
    rw [List.perm_singleton.mp hperm]
    simp [hid, hf]
  · rw [if_neg hf] at hperm
    rw [List.Perm.eq_nil hperm]
    simp [hf]

/-- One step of the storm fold. -/
theorem processEvents_cons (ts : List Trigger) (now : Int) (ev : TrigEvent)
    (rest : List (Int × TrigEvent)) :
    processEvents ts ((now, ev) :: rest) =
      ((processEvents (processEvent ts now ev).1 rest).1,
       ((processEvent ts now ev).2.map (fun a => (now, a))) ++
         (processEvents (processEvent ts now ev).1 rest).2) := by
  rcases h : processEvent ts now ev with ⟨tsp, acts⟩
  rcases h2 : processEvents tsp rest with ⟨tsF, actsRest⟩
  simp [processEvents, h, h2]

/-- The chain invariant behind C8: between the recorded last firing and every
subsequent firing of a rule with cooldown `T`, and between any two consecutive
firings, at least `T` milliseconds pass.  No ordering of the event instants is
even needed: the gate compares each instant against the recorded stamp. -/
theorem cooldown_chain (T : Nat) (hT : 0 < T) (i : String) :
    ∀ (evs : List (Int × TrigEvent)) (ts : List Trigger) (u : Trigger),
      u ∈ ts → u.id = i → u.cooldownMs = T →
      (ts.map (fun t => t.id)).Nodup →
      List.Chain' (fun a b => a + (T : Int) ≤ b)
        (u.lastFiredAt.toList ++ firingTimes ts evs i) := by
  intro evs
  induction evs with
  | nil =>
    intro ts u hmem hid hcd hnodup
    simp only [firingTimes, processEvents, List.filter_nil, List.map_nil,
      List.append_nil]
    cases u.lastFiredAt <;> simp
  | cons nowEv rest ih =>
    intro ts u hmem hid hcd hnodup
    obtain ⟨now, ev⟩ := nowEv
    by_cases hloop : ev.type = "trigger.fired" ∨ ev.type = "trigger.error"
    · have hpe : processEvent ts now ev = (ts, []) := by
        unfold processEvent; rw [if_pos hloop]
      have hsame : firingTimes ts ((now, ev) :: rest) i = firingTimes ts rest i := by
        unfold firingTimes
        rw [processEvents_cons, hpe]
        simp
      rw [hsame]
      exact ih ts u hmem hid hcd hnodup
    · obtain ⟨hts', hacts⟩ := processEvent_spec ts u i now ev hloop hnodup hmem hid
      have hfts : firingTimes ts ((now, ev) :: rest) i =
          (if (stepTrigger now ev u).2 then [now] else []) ++
            firingTimes (processEvent ts now ev).1 rest i := by
        unfold firingTimes
        rw [processEvents_cons]
        dsimp only
        rw [List.filter_append, List.map_append]
        congr 1
        rw [filter_of_map, List.map_map]
        dsimp only [Function.comp]
        rw [hacts]
        by_cases hf : (stepTrigger now ev u).2 <;> simp [hf]
      rw [hfts]
      -- facts about the stepped rule
      have hu' : (stepTrigger now ev u).1 ∈ (processEvent ts now ev).1 := by
        rw [hts']; exact List.mem_map_of_mem _ hmem
      have hid' : (stepTrigger now ev u).1.id = i := by
        rw [(stepTrigger_id now ev u).1]; exact hid
      have hcd' : (stepTrigger now ev u).1.cooldownMs = T := by
        rw [(stepTrigger_id now ev u).2]; exact hcd
      have hnodup' : ((processEvent ts now ev).1.map (fun t => t.id)).Nodup := by
        rw [hts', List.map_map]
        have : ((fun t => t.id) ∘ fun t => (stepTrigger now ev t).1) =
            fun t => t.id := by
          funext t; exact (stepTrigger_id now ev t).1
        rw [this]; exact hnodup
      have hrest := ih (processEvent ts now ev).1 (stepTrigger now ev u).1
        hu' hid' hcd' hnodup'
      by_cases hf : (stepTrigger now ev u).2
      · -- fired: the stamp becomes `now`, and the cooldown gate gave the gap
        have hlf' : (stepTrigger now ev u).1.lastFiredAt = some now := by
          unfold stepTrigger at hf ⊢
          by_cases hcond : (u.enabled ∧ eventMatchesTrigger u ev ∧
              checkCooldown u now ∧ checkConditions u ev)
          · rw [if_pos hcond]
          · rw [if_neg hcond] at hf; simp at hf
        have hcool : checkCooldown u now = true := by
          unfold stepTrigger at hf
          by_cases hcond : (u.enabled ∧ eventMatchesTrigger u ev ∧
              checkCooldown u now ∧ checkConditions u ev)
          · exact hcond.2.2.1
          · rw [if_neg hcond] at hf; simp at hf
        rw [if_pos hf]
        rw [hlf'] at hrest
        cases hlast : u.lastFiredAt with
        | none => simpa using hrest
        | some lf =>
          have hgap : lf + (T : Int) ≤ now := by
            unfold checkCooldown at hcool
            rw [hlast, hcd] at hcool
            have hTne : ¬ T = 0 := Nat.pos_iff_ne_zero.mp hT
            simp [hTne] at hcool
            omega
          simp only [Option.toList_some, List.cons_append, List.nil_append]
          rw [List.chain'_cons]
          refine ⟨hgap, ?_⟩
          simpa using hrest
      · -- not fired: nothing recorded, nothing changed on this rule
        have hsame : (stepTrigger now ev u).1 = u := by
          unfold stepTrigger at hf ⊢
          by_cases hcond : (u.enabled ∧ eventMatchesTrigger u ev ∧
              checkCooldown u now ∧ checkConditions u ev)
          · rw [if_pos hcond] at hf; simp at hf
          · rw [if_neg hcond]
        rw [if_neg hf]
        rw [hsame] at hrest
        simpa using hrest

/-- A pairwise gap of at least `T` leaves at most one element in any
half-open window of width `T`. -/
theorem pairwise_gap_window (l : List Int) (T : Nat) (a : Int)
    (hp : List.Pairwise (fun x y => x + (T : Int) ≤ y) l) :
    (l.filter (fun x => decide (a ≤ x ∧ x < a + T))).length ≤ 1 := by
  induction l with
  | nil => simp
  | cons x xs ih =>
    rw [List.pairwise_cons] at hp
    rw [List.filter_cons]
    by_cases hx : a ≤ x ∧ x < a + T
    · have htail : xs.filter (fun x => decide (a ≤ x ∧ x < a + T)) = [] := by
        apply List.filter_eq_nil_iff.mpr
        intro y hy
        have hgap := hp.1 y hy
        simp only [decide_eq_true_eq]
        omega
      rw [if_pos (decide_eq_true hx), htail]
      simp
    · simpa [hx] using ih hp.2

/-- C8.  A trigger with `cooldownMs = T > 0` fires at most once per `T`
milliseconds under any storm of events: consecutive firings (and the first
firing after a recorded `lastFiredAt`) are at least `T` apart, so any
half-open window of width `T` contains at most one firing. -/
theorem c8_trigger_cooldown (ts : List Trigger) (evs : List (Int × TrigEvent))
    (u : Trigger) (T : Nat)
    (hmem : u ∈ ts) (hcd : u.cooldownMs = T) (hT : 0 < T)
    (hnodup : (ts.map (fun t => t.id)).Nodup) :
    List.Chain' (fun a b => a + (T : Int) ≤ b)
      (u.lastFiredAt.toList ++ firingTimes ts evs u.id) ∧
    ∀ a : Int, ((firingTimes ts evs u.id).filter
      (fun x => decide (a ≤ x ∧ x < a + T))).length ≤ 1 := by
  have hchain := cooldown_chain T hT u.id evs ts u hmem rfl hcd hnodup
  refine ⟨hchain, fun a => ?_⟩
  have hsub : List.Chain' (fun x y : Int => x + (T : Int) ≤ y)
      (firingTimes ts evs u.id) := by
    cases hlast : u.lastFiredAt with
    | none => simpa [hlast] using hchain
    | some lf =>
      rw [hlast] at hchain
      simp only [Option.toList_some, List.cons_append, List.nil_append] at hchain
      exact (List.chain'_cons'.mp hchain).2
  haveI : IsTrans Int (fun x y : Int => x + (T : Int) ≤ y) := by
    constructor
    intro x y z hxy hyz
    have h1 : x + (T : Int) ≤ y := hxy
    have h2 : y + (T : Int) ≤ z := hyz
    show x + (T : Int) ≤ z
    omega
  exact pairwise_gap_window _ T a (List.chain'_iff_pairwise.mp hsub)

/-! ### C4: decoding applies no enum validation -/

/-- The one-step equation of `splitOnChar` on a cons. -/
theorem splitOnChar_cons (sep c : Char) (rest : List Char) :
    splitOnChar sep (c :: rest) =
      (if c = sep then [] :: splitOnChar sep rest
       else match splitOnChar sep rest with
         | [] => [[c]]
         | p :: ps => (c :: p) :: ps) := rfl

/-- `splitOnChar` of a separator-free list is the singleton. -/
theorem splitOnChar_no_sep (sep : Char) (l : List Char)
    (h : ∀ c ∈ l, c ≠ sep) : splitOnChar sep l = [l] := by
  induction l with
  | nil => rfl
  | cons c rest ih =>
    rw [splitOnChar_cons, if_neg (h c (List.mem_cons_self c rest))]
    rw [ih (fun x hx => h x (List.mem_cons_of_mem c hx))]

/-- `splitOnChar` peels a separator-free prefix up to the first separator. -/
theorem splitOnChar_append_sep (sep : Char) (l t : List Char)
    (h : ∀ c ∈ l, c ≠ sep) :
    splitOnChar sep (l ++ sep :: t) = l :: splitOnChar sep t := by
  induction l with
  | nil =>
    show splitOnChar sep (sep :: t) = [] :: splitOnChar sep t
    rw [splitOnChar_cons, if_pos rfl]
  | cons c rest ih =>
    show splitOnChar sep (c :: (rest ++ sep :: t)) = (c :: rest) :: splitOnChar sep t
    rw [splitOnChar_cons, if_neg (h c (List.mem_cons_self c rest))]
    rw [ih (fun x hx => h x (List.mem_cons_of_mem c hx))]

/-- Splitting a separator-joined list recovers the pieces when none of them
contains the separator. -/
theorem splitOnChar_joinWithChar (sep : Char) (ls : List (List Char))
    (hne : ls ≠ []) (h : ∀ l ∈ ls, ∀ c ∈ l, c ≠ sep) :
    splitOnChar sep (joinWithChar sep ls) = ls := by
  induction ls with
  | nil => cases hne rfl
  | cons l rest ih =>
    cases rest with
    | nil =>
      show splitOnChar sep (joinWithChar sep [l]) = [l]
      unfold joinWithChar
      exact splitOnChar_no_sep sep l (h l (List.mem_cons_self l []))
    | cons l2 rest2 =>
      show splitOnChar sep (joinWithChar sep (l :: l2 :: rest2)) = l :: l2 :: rest2
      have hj : joinWithChar sep (l :: l2 :: rest2) =
          l ++ sep :: joinWithChar sep (l2 :: rest2) := rfl
      rw [hj, splitOnChar_append_sep sep l _ (h l (List.mem_cons_self l _))]
      rw [ih (by simp) (fun x hx c hc => h x (List.mem_cons_of_mem l hx) c hc)]

/-- `splitNl` is a left inverse of `joinNl` on newline-free lines. -/
theorem splitNl_joinNl (ls : List String) (hne : ls ≠ [])
    (h : ∀ l ∈ ls, ∀ c ∈ l.data, c ≠ '\n') :
    splitNl (joinNl ls) = ls := by
  unfold splitNl joinNl
  show (splitOnChar '\n' (joinWithChar '\n' (ls.map String.data))).map _ = ls
  rw [splitOnChar_joinWithChar '\n' (ls.map String.data)
    (by simpa using hne)
    (by
      intro l hl c hc
      obtain ⟨s, hs, rfl⟩ := List.mem_map.mp hl
      exact h s hs c hc)]
  rw [List.map_map]
  have : ((fun l => (⟨l⟩ : String)) ∘ String.data) = id := by
    funext s
    rfl
  rw [this, List.map_id]

/-- `dropWhile` does nothing to a list whose elements all fail the test. -/
theorem dropWhileWs_of_all (l : List Char) (h : ∀ c ∈ l, isWs c = false) :
    dropWhileWs l = l := by
  cases l with
  | nil => rfl
  | cons c rest =>
    unfold dropWhileWs
    rw [List.dropWhile_cons, if_neg (by simp [h c (List.mem_cons_self c rest)])]

/-- `trim` of a string with no whitespace at all. -/
theorem jsTrim_of_no_ws (s : String) (h : ∀ c ∈ s.data, isWs c = false) :
    jsTrim s = s := by
  unfold jsTrim
  rw [dropWhileWs_of_all _ (fun c hc => h c (List.mem_reverse.mp hc))]
  rw [List.reverse_reverse]
  rw [dropWhileWs_of_all _ h]


theorem dropWhileWs_cons_false (c : Char) (l : List Char) (hc : isWs c = false) :
    dropWhileWs (c :: l) = c :: l := by
  unfold dropWhileWs
  rw [List.dropWhile_cons, if_neg (by simp [hc])]

/-- Strings kept unquoted by the YAML writer. -/
theorem yamlScalarString_plain (s : String)
    (h1 : ':' ∉ s.data) (h2 : '#' ∉ s.data) (h3 : '\n' ∉ s.data) :
    yamlScalarString s = s := by
  unfold yamlScalarString
  rw [if_neg]
  simp [h1, h2, h3]

theorem status_line_data (s : String) :
    ("status: " ++ s).data =
      's' :: 't' :: 'a' :: 't' :: 'u' :: 's' :: ':' :: ' ' :: s.data := by
  rw [String.data_append]
  rfl

/-- The header-line regex on an abstract status line. -/
theorem lineKV_status (s : String)
    (hne : s.data ≠ []) (hnws : ∀ c ∈ s.data, isWs c = false) :
    lineKV ("status: " ++ s).data = some (0, "status", s) := by
  obtain ⟨c, cs, hcons⟩ := List.exists_cons_of_ne_nil hne
  have hcmem : c ∈ s.data := by rw [hcons]; exact List.mem_cons_self c cs
  unfold lineKV
  rw [status_line_data, hcons]
  show some (0, "status", (⟨List.dropWhile isWs (c :: cs)⟩ : String)) =
    some (0, "status", s)
  rw [List.dropWhile_cons, if_neg (by simp [hnws c hcmem])]
  rw [← hcons]

/-- `trim` keeps a status line with a whitespace-free payload intact. -/
theorem jsTrim_status (s : String)
    (hne : s.data ≠ []) (hnws : ∀ c ∈ s.data, isWs c = false) :
    jsTrim ("status: " ++ s) = "status: " ++ s := by
  have hrne : s.data.reverse ≠ [] := by simp [hne]
  obtain ⟨d, ds, hrev⟩ := List.exists_cons_of_ne_nil hrne
  have hdmem : d ∈ s.data := by
    rw [← List.mem_reverse, hrev]
    exact List.mem_cons_self d ds
  unfold jsTrim
  rw [String.ext_iff]
  show dropWhileWs ((dropWhileWs ("status: ".data ++ s.data).reverse).reverse) =
    "status: ".data ++ s.data
  rw [List.reverse_append, hrev, List.cons_append,
    dropWhileWs_cons_false _ _ (hnws d hdmem), ← List.cons_append, ← hrev,
    ← List.reverse_append, List.reverse_reverse]
  show dropWhileWs ('s' :: ("tatus: ".data ++ s.data)) = 's' :: ("tatus: ".data ++ s.data)
  rw [dropWhileWs_cons_false _ _ (by decide)]

/-- `parseValue` on a plain scalar. -/
theorem parseValue_plain (s : String)
    (h1 : s ≠ "null") (h2 : s ≠ "true") (h3 : s ≠ "false")
    (h4 : isIntString s.data = false) (h5 : isFloatString s.data = false)
    (h6 : s.data.head? ≠ some '"') (h7 : s.data.head? ≠ some '[') :
    parseValue s = .ok (.str s) := by
  unfold parseValue
  rw [if_neg h1, if_neg h2, if_neg h3, if_neg (by simp [h4]),
    if_neg (by simp [h5]), if_neg (fun hc => h6 hc.1), if_neg h7]


/-- The one-step equation of the header loop. -/
theorem parseYamlGo_cons (fuel : Nat) (line : String) (rest : List String)
    (acc : List (String × YamlValue)) :
    parseYamlGo (fuel + 1) (line :: rest) acc =
      (let t := jsTrim line
       if t.data = [] ∨ t.data.head? = some '#' then parseYamlGo fuel rest acc
       else
         match lineKV line.data with
         | none => parseYamlGo fuel rest acc
         | some (ind, key, value) =>
           if 1 ≤ ind then parseYamlGo fuel rest acc
           else
             let tv := jsTrim value
             if tv = "" ∨ tv = "|" ∨ tv = ">" then
               match parseNested rest [] with
               | .error e => .error e
               | .ok (nested, remaining) =>
                 parseYamlGo fuel remaining (acc ++ [(jsTrim key, .obj nested)])
             else if tv.data.head? = some '[' then
               match jsonParse tv with
               | .error e => .error e
               | .ok v => parseYamlGo fuel rest (acc ++ [(jsTrim key, v)])
             else if tv.data.head? = some '-' then
               let first : Except String (List YamlValue) :=
                 if tv = "-" then .ok []
                 else
                   match parseValue (jsTrim ⟨tv.data.tail⟩) with
                   | .error e => .error e
                   | .ok v => .ok [v]
               match first with
               | .error e => .error e
               | .ok acc0 =>
                 match parseDashItems rest acc0 with
                 | .error e => .error e
                 | .ok (items, remaining) =>
                   parseYamlGo fuel remaining (acc ++ [(jsTrim key, .arr items)])
             else
               match parseValue tv with
               | .error e => .error e
               | .ok v => parseYamlGo fuel rest (acc ++ [(jsTrim key, v)])) := rfl

/-- Processing an abstract plain status line consumes exactly that line and
records `("status", .str s)`. -/
theorem parseYamlGo_status_step (s : String) (fuel : Nat) (rest : List String)
    (acc : List (String × YamlValue))
    (hne : s.data ≠ []) (hnws : ∀ c ∈ s.data, isWs c = false)
    (h1 : s ≠ "null") (h2 : s ≠ "true") (h3 : s ≠ "false")
    (hp : s ≠ "|") (hg : s ≠ ">")
    (h4 : isIntString s.data = false) (h5 : isFloatString s.data = false)
    (h6 : s.data.head? ≠ some '"') (h7 : s.data.head? ≠ some '[')
    (h8 : s.data.head? ≠ some '-') :
    parseYamlGo (fuel + 1) (("status: " ++ s) :: rest) acc =
      parseYamlGo fuel rest (acc ++ [("status", .str s)]) := by
  rw [parseYamlGo_cons]
  dsimp only
  rw [jsTrim_status s hne hnws]
  rw [if_neg (by
    rw [status_line_data]
    simp)]
  rw [lineKV_status s hne hnws]
  dsimp only
  rw [if_neg (by decide : ¬ (1 ≤ 0))]
  rw [jsTrim_of_no_ws s hnws]
  rw [if_neg (by
    push_neg
    exact ⟨fun h0 => hne (by rw [h0]), hp, hg⟩)]
  rw [if_neg h7, if_neg h8]
  rw [parseValue_plain s h1 h2 h3 h4 h5 h6 h7]
  rfl


/-- C4 (amended).  The decoder applies no enum validation at all: for *every*
plain scalar status value `s` (nonempty, no whitespace, no `:`/`#`, not one of
the YAML-special spellings `null`/`true`/`false`/`|`/`>`, not numeric, and not
starting with `"`/`[`/`-`), the file encoding an otherwise well-formed node
with `status: s` decodes *successfully* to a node carrying `s` verbatim —
including every value outside the declared status enum.  No `MalformedNode`
error arises. -/
theorem c4_amended_no_enum_validation (s : String)
    (hne : s.data ≠ []) (hnws : ∀ c ∈ s.data, isWs c = false)
    (hc1 : ':' ∉ s.data) (hc2 : '#' ∉ s.data)
    (h1 : s ≠ "null") (h2 : s ≠ "true") (h3 : s ≠ "false")
    (hp : s ≠ "|") (hg : s ≠ ">")
    (h4 : isIntString s.data = false) (h5 : isFloatString s.data = false)
    (h6 : s.data.head? ≠ some '"') (h7 : s.data.head? ≠ some '[')
    (h8 : s.data.head? ≠ some '-') :
    markdownToNode (c4File s) "p" =
      .ok { c4Base with status := s, filePath := "p" } := by
  have hc3 : '\n' ∉ s.data := fun hm => by
    have := hnws _ hm
    simp [isWs] at this
  have hq : yamlScalarString s = s := yamlScalarString_plain s hc1 hc2 hc3
  have h0 : c4File s = joinNl ["---",
      "id: doc/d-abcdef",
      "type: doc",
      "version: 1",
      "status: " ++ yamlScalarString s,
      "validity: current",
      "confidence: 1",
      "priority: normal",
      "tags: []",
      "created_by: null",
      "assigned_to: null",
      "locked_by: null",
      "created_at: \"2025-01-01T00:00:00.000Z\"",
      "modified_at: \"2025-01-01T00:00:00.000Z\"",
      "due_at: null",
      "ordering:",
      "  superseded_by: null",
      "  semantic_hash: 0123456789abcdef",
      "  source_freshness: 2025-01-01",
      "edges: []",
      "actions: []",
      "---",
      "",
      "# D",
      "",
      "Body."] := by
    unfold c4File nodeToMarkdown headerLines
    rw [show ({ c4Base with status := s } : Node).version = 1 from rfl,
        show ({ c4Base with status := s } : Node).confidence = 1 from rfl]
    rfl
  have hfile : c4File s = joinNl ["---",
      "id: doc/d-abcdef",
      "type: doc",
      "version: 1",
      "status: " ++ s,
      "validity: current",
      "confidence: 1",
      "priority: normal",
      "tags: []",
      "created_by: null",
      "assigned_to: null",
      "locked_by: null",
      "created_at: \"2025-01-01T00:00:00.000Z\"",
      "modified_at: \"2025-01-01T00:00:00.000Z\"",
      "due_at: null",
      "ordering:",
      "  superseded_by: null",
      "  semantic_hash: 0123456789abcdef",
      "  source_freshness: 2025-01-01",
      "edges: []",
      "actions: []",
      "---",
      "",
      "# D",
      "",
      "Body."] := by
    rw [h0, hq]
  have hsplit : splitNl (joinNl ["---",
      "id: doc/d-abcdef",
      "type: doc",
      "version: 1",
      "status: " ++ s,
      "validity: current",
      "confidence: 1",
      "priority: normal",
      "tags: []",
      "created_by: null",
      "assigned_to: null",
      "locked_by: null",
      "created_at: \"2025-01-01T00:00:00.000Z\"",
      "modified_at: \"2025-01-01T00:00:00.000Z\"",
      "due_at: null",
      "ordering:",
      "  superseded_by: null",
      "  semantic_hash: 0123456789abcdef",
      "  source_freshness: 2025-01-01",
      "edges: []",
      "actions: []",
      "---",
      "",
      "# D",
      "",
      "Body."]) = ["---",
      "id: doc/d-abcdef",
      "type: doc",
      "version: 1",
      "status: " ++ s,
      "validity: current",
      "confidence: 1",
      "priority: normal",
      "tags: []",
      "created_by: null",
      "assigned_to: null",
      "locked_by: null",
      "created_at: \"2025-01-01T00:00:00.000Z\"",
      "modified_at: \"2025-01-01T00:00:00.000Z\"",
      "due_at: null",
      "ordering:",
      "  superseded_by: null",
      "  semantic_hash: 0123456789abcdef",
      "  source_freshness: 2025-01-01",
      "edges: []",
      "actions: []",
      "---",
      "",
      "# D",
      "",
      "Body."] := by
    apply splitNl_joinNl
    · simp
    · intro l hl c hc heq
      subst heq
      simp only [List.mem_cons] at hl
      rcases hl with rfl|rfl|rfl|rfl|rfl|rfl|rfl|rfl|rfl|rfl|rfl|rfl|rfl|rfl|rfl|rfl|rfl|rfl|rfl|rfl|rfl|rfl|rfl|rfl|rfl|rfl|hfalse
      · exact absurd hc (by decide)
      · exact absurd hc (by decide)
      · exact absurd hc (by decide)
      · exact absurd hc (by decide)
      · rw [status_line_data] at hc
        simp at hc
        exact hc3 hc
      · exact absurd hc (by decide)
      · exact absurd hc (by decide)
      · exact absurd hc (by decide)
      · exact absurd hc (by decide)
      · exact absurd hc (by decide)
      · exact absurd hc (by decide)
      · exact absurd hc (by decide)
      · exact absurd hc (by decide)
      · exact absurd hc (by decide)
      · exact absurd hc (by decide)
      · exact absurd hc (by decide)
      · exact absurd hc (by decide)
      · exact absurd hc (by decide)
      · exact absurd hc (by decide)
      · exact absurd hc (by decide)
      · exact absurd hc (by decide)
      · exact absurd hc (by decide)
      · exact absurd hc (by decide)
      · exact absurd hc (by decide)
      · exact absurd hc (by decide)
      · exact absurd hc (by decide)
      · cases hfalse
  have hneq : ("status: " ++ s) ≠ "---" := by
    intro hcontra
    have hdata := congrArg String.data hcontra
    rw [status_line_data] at hdata
    simp at hdata
  have hp3 : (fun j => decide (1 ≤ j ∧ (["id: doc/d-abcdef",
      "type: doc",
      "version: 1",
      "status: " ++ s,
      "validity: current",
      "confidence: 1",
      "priority: normal",
      "tags: []",
      "created_by: null",
      "assigned_to: null",
      "locked_by: null",
      "created_at: \"2025-01-01T00:00:00.000Z\"",
      "modified_at: \"2025-01-01T00:00:00.000Z\"",
      "due_at: null",
      "ordering:",
      "  superseded_by: null",
      "  semantic_hash: 0123456789abcdef",
      "  source_freshness: 2025-01-01",
      "edges: []",
      "actions: []",
      "---",
      "",
      "# D",
      "",
      "Body."] : List String).getD j "" = "---" ∧
      j + 1 < (["id: doc/d-abcdef",
      "type: doc",
      "version: 1",
      "status: " ++ s,
      "validity: current",
      "confidence: 1",
      "priority: normal",
      "tags: []",
      "created_by: null",
      "assigned_to: null",
      "locked_by: null",
      "created_at: \"2025-01-01T00:00:00.000Z\"",
      "modified_at: \"2025-01-01T00:00:00.000Z\"",
      "due_at: null",
      "ordering:",
      "  superseded_by: null",
      "  semantic_hash: 0123456789abcdef",
      "  source_freshness: 2025-01-01",
      "edges: []",
      "actions: []",
      "---",
      "",
      "# D",
      "",
      "Body."] : List String).length)) 3 = false := by
    simp only [decide_eq_false_iff_not]
    intro hcontra
    exact hneq hcontra.2.1
  have hfc : findCloseIdx ["id: doc/d-abcdef",
      "type: doc",
      "version: 1",
      "status: " ++ s,
      "validity: current",
      "confidence: 1",
      "priority: normal",
      "tags: []",
      "created_by: null",
      "assigned_to: null",
      "locked_by: null",
      "created_at: \"2025-01-01T00:00:00.000Z\"",
      "modified_at: \"2025-01-01T00:00:00.000Z\"",
      "due_at: null",
      "ordering:",
      "  superseded_by: null",
      "  semantic_hash: 0123456789abcdef",
      "  source_freshness: 2025-01-01",
      "edges: []",
      "actions: []",
      "---",
      "",
      "# D",
      "",
      "Body."] = some 20 := by
    unfold findCloseIdx
    simp [List.find?_cons, hneq]
    intro j hj
    interval_cases j <;> simp [hneq]
  have hmeta : parseYamlLines ["id: doc/d-abcdef",
      "type: doc",
      "version: 1",
      "status: " ++ s,
      "validity: current",
      "confidence: 1",
      "priority: normal",
      "tags: []",
      "created_by: null",
      "assigned_to: null",
      "locked_by: null",
      "created_at: \"2025-01-01T00:00:00.000Z\"",
      "modified_at: \"2025-01-01T00:00:00.000Z\"",
      "due_at: null",
      "ordering:",
      "  superseded_by: null",
      "  semantic_hash: 0123456789abcdef",
      "  source_freshness: 2025-01-01",
      "edges: []",
      "actions: []"] = .ok [("id", YamlValue.str "doc/d-abcdef"), ("type", YamlValue.str "doc"),
      ("version", YamlValue.intV 1), ("status", YamlValue.str s),
      ("validity", YamlValue.str "current"), ("confidence", YamlValue.intV 1),
      ("priority", YamlValue.str "normal"), ("tags", YamlValue.arr []),
      ("created_by", YamlValue.nullV), ("assigned_to", YamlValue.nullV),
      ("locked_by", YamlValue.nullV),
      ("created_at", YamlValue.str "2025-01-01T00:00:00.000Z"),
      ("modified_at", YamlValue.str "2025-01-01T00:00:00.000Z"),
      ("due_at", YamlValue.nullV),
      ("ordering", YamlValue.obj [("superseded_by", YamlValue.nullV),
        ("semantic_hash", YamlValue.str "0123456789abcdef"),
        ("source_freshness", YamlValue.str "2025-01-01")]),
      ("edges", YamlValue.arr []), ("actions", YamlValue.arr [])] := by
    show parseYamlGo 21 _ [] = _
    calc parseYamlGo 21 ["id: doc/d-abcdef",
      "type: doc",
      "version: 1",
      "status: " ++ s,
      "validity: current",
      "confidence: 1",
      "priority: normal",
      "tags: []",
      "created_by: null",
      "assigned_to: null",
      "locked_by: null",
      "created_at: \"2025-01-01T00:00:00.000Z\"",
      "modified_at: \"2025-01-01T00:00:00.000Z\"",
      "due_at: null",
      "ordering:",
      "  superseded_by: null",
      "  semantic_hash: 0123456789abcdef",
      "  source_freshness: 2025-01-01",
      "edges: []",
      "actions: []"] []
        = parseYamlGo 18 (("status: " ++ s) :: ["validity: current",
          "confidence: 1",
          "priority: normal",
          "tags: []",
          "created_by: null",
          "assigned_to: null",
          "locked_by: null",
          "created_at: \"2025-01-01T00:00:00.000Z\"",
          "modified_at: \"2025-01-01T00:00:00.000Z\"",
          "due_at: null",
          "ordering:",
          "  superseded_by: null",
          "  semantic_hash: 0123456789abcdef",
          "  source_freshness: 2025-01-01",
          "edges: []",
          "actions: []"]) [("id", YamlValue.str "doc/d-abcdef"), ("type", YamlValue.str "doc"),
          ("version", YamlValue.intV 1)] := rfl
      _ = parseYamlGo 17 ["validity: current",
          "confidence: 1",
          "priority: normal",
          "tags: []",
          "created_by: null",
          "assigned_to: null",
          "locked_by: null",
          "created_at: \"2025-01-01T00:00:00.000Z\"",
          "modified_at: \"2025-01-01T00:00:00.000Z\"",
          "due_at: null",
          "ordering:",
          "  superseded_by: null",
          "  semantic_hash: 0123456789abcdef",
          "  source_freshness: 2025-01-01",
          "edges: []",
          "actions: []"]
            ([("id", YamlValue.str "doc/d-abcdef"), ("type", YamlValue.str "doc"),
          ("version", YamlValue.intV 1)] ++ [("status", YamlValue.str s)]) :=
          parseYamlGo_status_step s 17 _ _ hne hnws h1 h2 h3 hp hg h4 h5 h6 h7 h8
      _ = .ok [("id", YamlValue.str "doc/d-abcdef"), ("type", YamlValue.str "doc"),
      ("version", YamlValue.intV 1), ("status", YamlValue.str s),
      ("validity", YamlValue.str "current"), ("confidence", YamlValue.intV 1),
      ("priority", YamlValue.str "normal"), ("tags", YamlValue.arr []),
      ("created_by", YamlValue.nullV), ("assigned_to", YamlValue.nullV),
      ("locked_by", YamlValue.nullV),
      ("created_at", YamlValue.str "2025-01-01T00:00:00.000Z"),
      ("modified_at", YamlValue.str "2025-01-01T00:00:00.000Z"),
      ("due_at", YamlValue.nullV),
      ("ordering", YamlValue.obj [("superseded_by", YamlValue.nullV),
        ("semantic_hash", YamlValue.str "0123456789abcdef"),
        ("source_freshness", YamlValue.str "2025-01-01")]),
      ("edges", YamlValue.arr []), ("actions", YamlValue.arr [])] := rfl
  rw [hfile]
  unfold markdownToNode
  rw [hsplit]
  dsimp only
  rw [hfc]
  dsimp only
  rw [show List.take 20 (["id: doc/d-abcdef", "type: doc", "version: 1", "status: " ++ s, "validity: current", "confidence: 1", "priority: normal", "tags: []", "created_by: null", "assigned_to: null", "locked_by: null", "created_at: \"2025-01-01T00:00:00.000Z\"", "modified_at: \"2025-01-01T00:00:00.000Z\"", "due_at: null", "ordering:", "  superseded_by: null", "  semantic_hash: 0123456789abcdef", "  source_freshness: 2025-01-01", "edges: []", "actions: []", "---", "", "# D", "", "Body."] : List String) = ["id: doc/d-abcdef", "type: doc", "version: 1", "status: " ++ s, "validity: current", "confidence: 1", "priority: normal", "tags: []", "created_by: null", "assigned_to: null", "locked_by: null", "created_at: \"2025-01-01T00:00:00.000Z\"", "modified_at: \"2025-01-01T00:00:00.000Z\"", "due_at: null", "ordering:", "  superseded_by: null", "  semantic_hash: 0123456789abcdef", "  source_freshness: 2025-01-01", "edges: []", "actions: []"] from rfl]
  rw [hmeta]
  rfl

/-- C4.  Counterexample to the claimed closed-enum parse failure: a file whose
status is the out-of-set scalar `bogus` decodes successfully — the decoder
returns a node carrying `status = "bogus"` instead of a `MalformedNode`
error. -/
theorem c4_counterexample_bogus_status :
    "bogus" ∉ nodeStatuses ∧
    markdownToNode (c4File "bogus") "p" =
      .ok { c4Base with status := "bogus", filePath := "p" } := by
  refine ⟨by decide, by decide⟩

/-- Witness for the amended C4 theorem at the out-of-set status `bogus`. -/
theorem c4_amended_no_enum_validation_witness :
    (("bogus" : String).data ≠ [] ∧
      (∀ c ∈ ("bogus" : String).data, isWs c = false) ∧
      ':' ∉ ("bogus" : String).data ∧ '#' ∉ ("bogus" : String).data ∧
      ("bogus" : String) ≠ "null" ∧ ("bogus" : String) ≠ "true" ∧
      ("bogus" : String) ≠ "false" ∧ ("bogus" : String) ≠ "|" ∧
      ("bogus" : String) ≠ ">" ∧
      isIntString ("bogus" : String).data = false ∧
      isFloatString ("bogus" : String).data = false ∧
      ("bogus" : String).data.head? ≠ some '"' ∧
      ("bogus" : String).data.head? ≠ some '[' ∧
      ("bogus" : String).data.head? ≠ some '-') ∧
    markdownToNode (c4File "bogus") "p" =
      .ok { c4Base with status := "bogus", filePath := "p" } :=
  ⟨⟨by decide, by decide, by decide, by decide, by decide, by decide, by decide,
    by decide, by decide, by decide, by decide, by decide, by decide, by decide⟩,
   c4_amended_no_enum_validation "bogus" (by decide) (by decide) (by decide)
     (by decide) (by decide) (by decide) (by decide) (by decide) (by decide)
     (by decide) (by decide) (by decide) (by decide) (by decide)⟩

/-! ### C7: id and semantic-hash shape -/

theorem shaRound_length (st : List Nat) (kw : Nat × Nat) (h : st.length = 8) :
    (shaRound st kw).length = 8 := by
  rcases st with _ | ⟨a, st⟩; · simp at h
  rcases st with _ | ⟨b, st⟩; · simp at h
  rcases st with _ | ⟨c, st⟩; · simp at h
  rcases st with _ | ⟨d, st⟩; · simp at h
  rcases st with _ | ⟨e, st⟩; · simp at h
  rcases st with _ | ⟨f, st⟩; · simp at h
  rcases st with _ | ⟨g, st⟩; · simp at h
  rcases st with _ | ⟨h8, st⟩; · simp at h
  rcases st with _ | ⟨i, st⟩
  · simp [shaRound]
  · simp at h

theorem foldl_shaRound_length (l : List (Nat × Nat)) (st : List Nat)
    (h : st.length = 8) : (l.foldl shaRound st).length = 8 := by
  induction l generalizing st with
  | nil => exact h
  | cons kw rest ih => exact ih _ (shaRound_length st kw h)

theorem compressBlock_length (hs block : List Nat) (h : hs.length = 8) :
    (compressBlock hs block).length = 8 := by
  unfold compressBlock
  rw [List.length_zipWith, foldl_shaRound_length _ _ h, h]
  simp

theorem sha256Words_length (msg : List Nat) : (sha256Words msg).length = 8 := by
  unfold sha256Words
  generalize chunk64 (shaPad msg) = blocks
  have hgen : ∀ (bs : List (List Nat)) (hs : List Nat), hs.length = 8 →
      (bs.foldl compressBlock hs).length = 8 := by
    intro bs
    induction bs with
    | nil => intro hs h; exact h
    | cons b rest ih => intro hs h; exact ih _ (compressBlock_length hs b h)
  exact hgen blocks shaH0 (by decide)

theorem wordHex_length (w : Nat) : (wordHex w).length = 8 := by
  simp [wordHex]

/-- A hex digest is 64 characters. -/
theorem sha256Hex_length (s : String) : (sha256Hex s).data.length = 64 := by
  show (((sha256Words (strBytes s)).map wordHex).flatten).length = 64
  rw [List.length_flatten]
  have : ((sha256Words (strBytes s)).map wordHex).map List.length =
      (sha256Words (strBytes s)).map (fun _ => 8) := by
    rw [List.map_map]
    apply List.map_congr_left
    intro w _
    exact wordHex_length w
  rw [this, List.map_const', List.sum_replicate, sha256Words_length]
  rfl

theorem hexNibble_hex (n : Nat) (h : n ≤ 15) : isHexChar (hexNibble n) = true := by
  interval_cases n <;> decide

theorem wordHex_hex (w : Nat) (c : Char) (hc : c ∈ wordHex w) :
    isHexChar c = true := by
  unfold wordHex at hc
  obtain ⟨i, _, rfl⟩ := List.mem_map.mp hc
  exact hexNibble_hex _ (Nat.and_le_right)

/-- Every character of a hex digest is a lowercase hex digit. -/
theorem sha256Hex_hex (s : String) (c : Char) (hc : c ∈ (sha256Hex s).data) :
    isHexChar c = true := by
  have hc' : c ∈ ((sha256Words (strBytes s)).map wordHex).flatten := hc
  obtain ⟨l, hl, hcl⟩ := List.mem_flatten.mp hc'
  obtain ⟨w, _, rfl⟩ := List.mem_map.mp hl
  exact wordHex_hex w c hcl

theorem slugReplaceGo_chars (b : Bool) (l : List Char) (c : Char)
    (hc : c ∈ slugReplaceGo b l) : isAsciiLowerAlnum c = true ∨ c = '-' := by
  induction l generalizing b with
  | nil => cases hc
  | cons x rest ih =>
    unfold slugReplaceGo at hc
    by_cases hx : isAsciiLowerAlnum x
    · rw [if_pos hx] at hc
      rcases List.mem_cons.mp hc with rfl | hc'
      · exact Or.inl hx
      · exact ih _ hc'
    · rw [if_neg hx] at hc
      by_cases hb : b = true
      · rw [if_pos hb] at hc
        exact ih _ hc
      · rw [if_neg hb] at hc
        rcases List.mem_cons.mp hc with rfl | hc'
        · exact Or.inr rfl
        · exact ih _ hc'

/-- Every character a title slug can contain lies in `[-a-z0-9]`. -/
theorem titleSlug_chars (title : String) (c : Char) (hc : c ∈ titleSlug title) :
    isSlugChar c = true := by
  unfold titleSlug at hc
  have h1 := List.mem_of_mem_take hc
  unfold trimDashOnce at h1
  dsimp only at h1
  have h2 : c ∈ slugReplace (jsToLower title).data := by
    by_cases ha : (slugReplace (jsToLower title).data).head? = some '-'
    · rw [if_pos ha] at h1
      by_cases hb : ((slugReplace (jsToLower title).data).tail).getLast? = some '-'
      · rw [if_pos hb] at h1
        exact List.mem_of_mem_tail (List.dropLast_subset _ h1)
      · rw [if_neg hb] at h1
        exact List.mem_of_mem_tail h1
    · rw [if_neg ha] at h1
      by_cases hb : (slugReplace (jsToLower title).data).getLast? = some '-'
      · rw [if_pos hb] at h1
        exact List.dropLast_subset _ h1
      · rw [if_neg hb] at h1
        exact h1
  rcases slugReplaceGo_chars false _ c h2 with h | rfl
  · unfold isSlugChar
    unfold isAsciiLowerAlnum isDigitChar at h
    rcases Bool.or_eq_true_iff.mp h with h' | h'
    · simp [h']
    · simp [h']
  · decide

/-- The semantic hash is the first 16 characters of a hex digest. -/
theorem generateSemanticHash_shape (content : String) :
    (generateSemanticHash content).data.length = 16 ∧
    (generateSemanticHash content).data.all isHexChar = true := by
  unfold generateSemanticHash
  dsimp only
  constructor
  · show ((sha256Hex _).data.take 16).length = 16
    rw [List.length_take, sha256Hex_length]
    rfl
  · show ((sha256Hex _).data.take 16).all isHexChar = true
    rw [List.all_eq_true]
    intro c hc
    exact sha256Hex_hex _ c (List.mem_of_mem_take hc)

/-- C7.  Counterexample to the `untitled` fallback: `generateId` has no such
fallback, so a title with no alphanumerics (here `"!!!"`) yields the empty
slug, and an id (`task/` followed by `-05dc7e`) whose slug portion is empty rather than
`untitled`, and that id fails the spec's `{type}/[-a-z0-9]{1,50}-[0-9a-f]{6}`
pattern (the slug needs at least one character). -/
theorem c7_counterexample_empty_slug :
    titleSlug "!!!" = [] ∧
    generateId "task" "!!!" 0 = "task/-05dc7e" ∧
    idMatchesPattern "task" (generateId "task" "!!!" 0) = false := by
  refine ⟨by decide, by decide, by decide⟩

/-- C7 (amended).  Whenever the derived slug is nonempty (the title contains
at least one `[a-z0-9]` character after lowercasing), the generated id matches
`{type}/[-a-z0-9]{1,50}-[0-9a-f]{6}`, and for every content the semantic hash
is 16 lowercase hex characters.  The empty-slug case is the counterexample:
no `untitled` fallback exists. -/
theorem c7_amended_id_shape (type title content : String) (nowMs : Nat)
    (hne : titleSlug title ≠ []) :
    idMatchesPattern type (generateId type title nowMs) = true ∧
    (generateSemanticHash content).data.length = 16 ∧
    (generateSemanticHash content).data.all isHexChar = true := by
  refine ⟨?_, (generateSemanticHash_shape content).1,
    (generateSemanticHash_shape content).2⟩
  have hpos : 1 ≤ (titleSlug title).length :=
    List.length_pos.mpr hne
  have hlen : (titleSlug title).length ≤ 50 := by
    unfold titleSlug
    exact List.length_take_le 50 _
  have hhlen :
      ((sha256Hex (type ++ ":" ++ title ++ ":" ++ natToString nowMs)).data.take 6).length = 6 := by
    rw [List.length_take, sha256Hex_length]
    rfl
  have hdata : (generateId type title nowMs).data =
      (type ++ "/").data ++ (titleSlug title ++
        '-' :: (sha256Hex (type ++ ":" ++ title ++ ":" ++ natToString nowMs)).data.take 6) := by
    unfold generateId
    dsimp only
    simp [String.data_append, List.append_assoc]
  have hcond : ((generateId type title nowMs).data.take (type ++ "/").data.length) =
      (type ++ "/").data := by
    rw [hdata, List.take_left]
  have hbody : (generateId type title nowMs).data.drop (type ++ "/").data.length =
      titleSlug title ++
        '-' :: (sha256Hex (type ++ ":" ++ title ++ ":" ++ natToString nowMs)).data.take 6 := by
    rw [hdata, List.drop_left]
  unfold idMatchesPattern
  dsimp only
  rw [if_pos hcond, hbody]
  have hn : (titleSlug title ++
      '-' :: (sha256Hex (type ++ ":" ++ title ++ ":" ++ natToString nowMs)).data.take 6).length =
      (titleSlug title).length + 7 := by
    rw [List.length_append, List.length_cons, hhlen]
  rw [hn]
  have h7 : (titleSlug title).length + 7 - 7 = (titleSlug title).length := by omega
  have h6 : (titleSlug title).length + 7 - 6 = (titleSlug title).length + 1 := by omega
  rw [h7, h6]
  rw [show ((titleSlug title ++
      '-' :: (sha256Hex (type ++ ":" ++ title ++ ":" ++ natToString nowMs)).data.take 6).take
        (titleSlug title).length) = titleSlug title from by rw [List.take_left]]
  rw [show ((titleSlug title ++
      '-' :: (sha256Hex (type ++ ":" ++ title ++ ":" ++ natToString nowMs)).data.take 6).drop
        (titleSlug title).length) =
      '-' :: (sha256Hex (type ++ ":" ++ title ++ ":" ++ natToString nowMs)).data.take 6 from
    List.drop_left _ _]
  have hdrop6 : ((titleSlug title ++
      '-' :: (sha256Hex (type ++ ":" ++ title ++ ":" ++ natToString nowMs)).data.take 6).drop
        ((titleSlug title).length + 1)) =
      (sha256Hex (type ++ ":" ++ title ++ ":" ++ natToString nowMs)).data.take 6 := by
    have hsplit : titleSlug title ++
        '-' :: (sha256Hex (type ++ ":" ++ title ++ ":" ++ natToString nowMs)).data.take 6 =
        (titleSlug title ++ ['-']) ++
          (sha256Hex (type ++ ":" ++ title ++ ":" ++ natToString nowMs)).data.take 6 := by
      simp
    have hl1 : (titleSlug title ++ ['-']).length = (titleSlug title).length + 1 := by simp
    rw [hsplit, ← hl1, List.drop_left]
  rw [hdrop6]
  simp only [Bool.and_eq_true, decide_eq_true_eq]
  refine ⟨⟨⟨⟨?_, ?_⟩, ?_⟩, ?_⟩, ?_⟩
  · omega
  · exact hlen
  · rw [List.all_eq_true]
    intro c hc
    exact titleSlug_chars title c hc
  · rfl
  · rw [List.all_eq_true]
    intro c hc
    exact sha256Hex_hex _ c (List.mem_of_mem_take hc)

/-- Witness for the amended C7 theorem at a concrete creation. -/
theorem c7_amended_id_shape_witness :
    titleSlug "hello world" ≠ [] ∧
    (idMatchesPattern "task" (generateId "task" "hello world" 0) = true ∧
      (generateSemanticHash "Some Content!").data.length = 16 ∧
      (generateSemanticHash "Some Content!").data.all isHexChar = true) :=
  ⟨by decide, c7_amended_id_shape "task" "hello world" "Some Content!" 0 (by decide)⟩

/-! ### C9: dedup matches and the recommendation boundaries -/

/-- The exact value of the binary64 `0.95`. -/
theorem dbl_1920 : dbl 19 20 = (4278419646001971 : Rat) / 4503599627370496 := by
  unfold dbl
  rw [show f64OfNatDiv 19 20 = (⟨8556839292003942, -53⟩ : F64) from by decide]
  unfold ratOfF64
  norm_num [show Int.toNat 53 = 53 from rfl]

/-- The exact value of the binary64 `0.8`. -/
theorem dbl_45 : dbl 4 5 = (3602879701896397 : Rat) / 4503599627370496 := by
  unfold dbl
  rw [show f64OfNatDiv 4 5 = (⟨7205759403792794, -53⟩ : F64) from by decide]
  unfold ratOfF64
  norm_num [show Int.toNat 53 = 53 from rfl]

/-- The exact value of the binary64 `0.7`. -/
theorem dbl_710 : dbl 7 10 = (3152519739159347 : Rat) / 4503599627370496 := by
  unfold dbl
  rw [show f64OfNatDiv 7 10 = (⟨6305039478318694, -53⟩ : F64) from by decide]
  unfold ratOfF64
  norm_num [show Int.toNat 53 = 53 from rfl]

/-- The exact value of the binary64 `0.3`. -/
theorem dbl_310 : dbl 3 10 = (5404319552844595 : Rat) / 18014398509481984 := by
  unfold dbl
  rw [show f64OfNatDiv 3 10 = (⟨5404319552844595, -54⟩ : F64) from by decide]
  unfold ratOfF64
  norm_num [show Int.toNat 54 = 54 from rfl]

/-- The C9 boundary input scores *exactly* the binary64 `0.95`:
`fl(fl(fl(9/10)·0.5) + fl(0.3)) + fl(0.2)` has mantissa `8556839292003942`
at exponent `-53`, the representation of the binary64 nearest `0.95`. -/
theorem c9_sim : calculateSimilarity c9Extracted c9Existing = f64OfNatDiv 19 20 := by
  decide

theorem c9_simR :
    ratOfF64 (calculateSimilarity c9Extracted c9Existing) = dbl 19 20 :=
  congrArg ratOfF64 c9_sim

theorem c9_find : findSimilarFrom c9Extracted [c9Existing] = [c9Match] := by
  unfold findSimilarFrom
  rw [List.filterMap_cons, List.filterMap_nil]
  dsimp only
  rw [c9_simR]
  rw [if_pos (by rw [dbl_1920, dbl_310]; norm_num : dbl 19 20 > dbl 3 10),
    if_neg (by simp : ¬ (dbl 19 20 > dbl 19 20)),
    if_pos (by rw [dbl_1920, dbl_710]; norm_num : dbl 19 20 > dbl 7 10)]
  simp [sortByDesc, insertDescBy, c9Match]

/-- C9.  Counterexample to the claimed `skip` boundary: the claim says the
recommendation is `skip` when the top similarity is *at least* `0.95`, but
`matchType === 'exact'` requires similarity *strictly above* the binary64
`0.95`.  The boundary is reachable in binary64: with `titleSim = fl(9/10)`,
`contentSim = tagSim = 1`, the weighted sum evaluates to exactly the binary64
`0.95`, so the code recommends `merge`, not `skip`. -/
theorem c9_counterexample_boundary_is_merge :
    ratOfF64 (calculateSimilarity c9Extracted c9Existing) = dbl 19 20 ∧
    getRecommendation {} (findSimilarFrom c9Extracted [c9Existing]) = "merge" ∧
    getRecommendation {} (findSimilarFrom c9Extracted [c9Existing]) ≠ "skip" := by
  refine ⟨c9_simR, ?_, ?_⟩
  · rw [c9_find]
    unfold getRecommendation
    rw [List.head?_cons]
    dsimp only [c9Match]
    rw [if_pos (by rw [dbl_1920, dbl_45]; norm_num :
      dbl 19 20 ≥ ({} : SynthesisConfig).deduplicationThreshold)]
    rw [if_neg (by decide : ¬ ("semantic" : String) = "exact")]
  · rw [c9_find]
    unfold getRecommendation
    rw [List.head?_cons]
    dsimp only [c9Match]
    rw [if_pos (by rw [dbl_1920, dbl_45]; norm_num :
      dbl 19 20 ≥ ({} : SynthesisConfig).deduplicationThreshold)]
    rw [if_neg (by decide : ¬ ("semantic" : String) = "exact")]
    decide

theorem insertDescBy_sorted {α β : Type} [LinearOrder β] (key : α → β) (x : α)
    (l : List α) (h : l.Pairwise (fun a b => key b ≤ key a)) :
    (insertDescBy key x l).Pairwise (fun a b => key b ≤ key a) := by
  induction l with
  | nil => simp [insertDescBy]
  | cons y ys ih =>
    rw [List.pairwise_cons] at h
    unfold insertDescBy
    by_cases hk : key y ≤ key x
    · rw [if_pos hk]
      rw [List.pairwise_cons]
      refine ⟨?_, List.pairwise_cons.mpr h⟩
      intro z hz
      rcases List.mem_cons.mp hz with rfl | hz'
      · exact hk
      · exact le_trans (h.1 z hz') hk
    · rw [if_neg hk]
      rw [List.pairwise_cons]
      refine ⟨?_, ih h.2⟩
      intro z hz
      have hz' : z ∈ x :: ys := (insertDescBy_perm key x ys).mem_iff.mp hz
      rcases List.mem_cons.mp hz' with rfl | hz''
      · exact le_of_lt (lt_of_not_le hk)
      · exact h.1 z hz''

theorem sortByDesc_sorted {α β : Type} [LinearOrder β] (key : α → β)
    (l : List α) :
    (sortByDesc key l).Pairwise (fun a b => key b ≤ key a) := by
  induction l with
  | nil => simp [sortByDesc]
  | cons x xs ih => exact insertDescBy_sorted key x _ ih

/-- Every match `findSimilar` keeps is strictly above the binary64 `0.3` and
carries the match type derived from the strict binary64 `0.95` / `0.7`
comparisons. -/
theorem findSimilarFrom_mem (e : ExtractedNode) (ns : List Node)
    (m : SimilarityMatch) (hm : m ∈ findSimilarFrom e ns) :
    m.similarity > dbl 3 10 ∧
    m.matchType = (if m.similarity > dbl 19 20 then "exact"
                   else if m.similarity > dbl 7 10 then "semantic" else "partial") := by
  unfold findSimilarFrom at hm
  have h1 := List.take_subset 5 _ hm
  have h2 := (sortByDesc_perm (fun m : SimilarityMatch => m.similarity) _).mem_iff.mp h1
  obtain ⟨x, hx, hfx⟩ := List.mem_filterMap.mp h2
  dsimp only at hfx
  by_cases hc : ratOfF64 (calculateSimilarity e x) > dbl 3 10
  · rw [if_pos hc] at hfx
    obtain rfl := Option.some.inj hfx
    exact ⟨hc, rfl⟩
  · rw [if_neg hc] at hfx
    cases hfx

/-- C9 (amended).  Dedup keeps at most 5 matches, all with similarity
strictly above the binary64 `0.3`, sorted by similarity descending; with the
default configuration (`deduplicationThreshold` the binary64 `0.8`) the
recommendation for a nonempty match list is `skip` when the top similarity is
*strictly above* the binary64 `0.95`, `merge` when it is at least the
binary64 `0.8` but not above the binary64 `0.95`, `link` when it is at least
`0.5`, and `create` otherwise (also when no match survived). -/
theorem c9_amended_dedup_and_recommendation (e : ExtractedNode) (ns : List Node) :
    (findSimilarFrom e ns).length ≤ 5 ∧
    (∀ m ∈ findSimilarFrom e ns, m.similarity > dbl 3 10) ∧
    (findSimilarFrom e ns).Pairwise (fun a b => b.similarity ≤ a.similarity) ∧
    ((findSimilarFrom e ns).head? = none →
      getRecommendation {} (findSimilarFrom e ns) = "create") ∧
    (∀ top, (findSimilarFrom e ns).head? = some top →
      getRecommendation {} (findSimilarFrom e ns) =
        (if top.similarity > dbl 19 20 then "skip"
         else if top.similarity ≥ dbl 4 5 then "merge"
         else if top.similarity ≥ dbl 1 2 then "link"
         else "create")) := by
  refine ⟨?_, ?_, ?_, ?_, ?_⟩
  · unfold findSimilarFrom
    exact List.length_take_le 5 _
  · intro m hm
    exact (findSimilarFrom_mem e ns m hm).1
  · unfold findSimilarFrom
    exact List.Pairwise.sublist (List.take_sublist 5 _)
      (sortByDesc_sorted (fun m : SimilarityMatch => m.similarity) _)
  · intro h
    unfold getRecommendation
    rw [h]
  · intro top htop
    cases hfind : findSimilarFrom e ns with
    | nil => rw [hfind] at htop; cases htop
    | cons m rest =>
      rw [hfind] at htop
      rw [List.head?_cons] at htop
      obtain rfl := Option.some.inj htop
      have hmem : m ∈ findSimilarFrom e ns := by
        rw [hfind]; exact List.mem_cons_self m rest
      have hmt := (findSimilarFrom_mem e ns m hmem).2
      unfold getRecommendation
      rw [List.head?_cons]
      dsimp only
      by_cases hB : m.similarity ≥ dbl 4 5
      · rw [if_pos hB]
        by_cases hA : m.similarity > dbl 19 20
        · rw [if_pos hA] at hmt
          rw [if_pos hmt, if_pos hA]
        · rw [if_neg hA] at hmt
          have hne : ¬ m.matchType = "exact" := by
            rw [hmt]
            by_cases hC : m.similarity > dbl 7 10
            · rw [if_pos hC]; decide
            · rw [if_neg hC]; decide
          rw [if_neg hne, if_neg hA, if_pos hB]
      · rw [if_neg hB]
        have hA : ¬ m.similarity > dbl 19 20 := by
          intro hgt
          apply hB
          have h45 : dbl 4 5 ≤ dbl 19 20 := by
            rw [dbl_45, dbl_1920]; norm_num
          linarith
        rw [if_neg hA, if_neg hB]

/-- Witness for the amended C9 theorem at the boundary scenario. -/
theorem c9_amended_dedup_witness :
    (findSimilarFrom c9Extracted [c9Existing]).length ≤ 5 ∧
    (∀ m ∈ findSimilarFrom c9Extracted [c9Existing], m.similarity > dbl 3 10) ∧
    (findSimilarFrom c9Extracted [c9Existing]).Pairwise
      (fun a b => b.similarity ≤ a.similarity) ∧
    ((findSimilarFrom c9Extracted [c9Existing]).head? = none →
      getRecommendation {} (findSimilarFrom c9Extracted [c9Existing]) = "create") ∧
    (∀ top, (findSimilarFrom c9Extracted [c9Existing]).head? = some top →
      getRecommendation {} (findSimilarFrom c9Extracted [c9Existing]) =
        (if top.similarity > dbl 19 20 then "skip"
         else if top.similarity ≥ dbl 4 5 then "merge"
         else if top.similarity ≥ dbl 1 2 then "link"
         else "create")) :=
  c9_amended_dedup_and_recommendation c9Extracted [c9Existing]

theorem c8_trigger_cooldown_witness :
    (c8Trig ∈ [c8Trig] ∧ c8Trig.cooldownMs = 100 ∧ 0 < 100 ∧
      ([c8Trig].map (fun t => t.id)).Nodup) ∧
    (List.Chain' (fun a b => a + ((100 : Nat) : Int) ≤ b)
        (c8Trig.lastFiredAt.toList ++ firingTimes [c8Trig] c8Storm c8Trig.id) ∧
      ∀ a : Int, ((firingTimes [c8Trig] c8Storm c8Trig.id).filter
        (fun x => decide (a ≤ x ∧ x < a + (100 : Nat)))).length ≤ 1) :=
  ⟨⟨List.mem_singleton.mpr rfl, rfl, by decide, by simp⟩,
   c8_trigger_cooldown [c8Trig] c8Storm c8Trig 100
     (List.mem_singleton.mpr rfl) rfl (by decide) (by simp)⟩

end MemoryCube
